import Mathlib

/-!
# panic-wipe: a shallow embedding of `src/panic.c`

The program locks the screen, walks `/dev`, runs external erase commands on
every leaf it finds, flushes, and powers the machine off.  Everything the C
code does to the outside world is recorded as an `Event` appended to a trace;
everything it reads from the outside world (directory listings, `stat`
results, whether `fopen` succeeds, how long `sleep` really slept, the
effective uid) is answered by an `Env`, and every answer may depend on the
trace so far, so the environment is free to change while the program runs.

C strings are modelled by Lean strings (a `char` is a `Char`, `strlen` is the
number of characters).  The walk budget, an `int` that only ever
decreases from a small value, is an `Int`; `atoi` is glibc's on 64-bit Linux,
saturating as `strtol` does and truncated to 32 bits; the one `unsigned int`
(`shutdown_delay`) is a `Nat` reduced modulo `2 ^ 32` where it is assigned.
-/

namespace PanicWipe

/-! ## The outside world -/

/-- The argument of `reboot(2)` as used by the program. -/
inductive RebootCmd where
  | RB_POWER_OFF
  | RB_AUTOBOOT
  deriving DecidableEq, Repr

/-- One observable action of the process, in the order it is issued. -/
inductive Event where
  | system (cmd : String)
  | sync
  | fopen (path : String) (ok : Bool)
  | printf (text : String)
  | fwrite (path : String) (bytes : List Char)
  | fclose (path : String)
  | sleep (requested remaining : Nat)
  | reboot (howto : RebootCmd)
  | execvp (file : String) (args : List String)
  deriving DecidableEq, Repr

/-- The trace of events issued so far. -/
abbrev World := List Event

/-- What `opendir`/`readdir` and `stat` answer.  `opendir p = none` is a
failed `opendir`; otherwise it is the sequence of `d_name`s that successive
`readdir` calls return.  `stat p = none` is `stat` returning `-1`; otherwise
it is `st_mode`. -/
structure FS where
  opendir : String → Option (List String)
  stat : String → Option Nat

/-- The environment of one run: every answer may depend on the trace so far.
`sleep w n` is the number of seconds the environment leaves unslept when
`sleep(n)` is called after the trace `w`. -/
structure Env where
  geteuid : Nat
  fs : World → FS
  fopen : World → String → Bool
  sleep : World → Nat → Nat

/-- The file-type mask of `st_mode` (`<sys/stat.h>`, Linux). -/
def S_IFMT : Nat := 0o170000
/-- The file-type bits of a directory. -/
def S_IFDIR : Nat := 0o040000
/-- The file-type bits of a block-special file. -/
def S_IFBLK : Nat := 0o060000

/-- The macro `S_ISBLK(mode)`. -/
def S_ISBLK (mode : Nat) : Bool := mode &&& S_IFMT == S_IFBLK

/-- The call `system(cmd)`; its return value is never inspected by the program. -/
def system (cmd : String) (w : World) : World := w ++ [Event.system cmd]

/-- The call `sync()`. -/
def sync (w : World) : World := w ++ [Event.sync]

/-! ## Command construction (panic.c lines 22-45) -/

/-- The function `construct_cmd`: `sprintf(cmd, "%s %s", cmd_base, v)`. -/
def construct_cmd (cmd_base v : String) : String := cmd_base ++ " " ++ v

def construct_blkdiscard_secure (v : String) : String := construct_cmd "blkdiscard -sfv" v

def construct_blkdiscard_insecure (v : String) : String := construct_cmd "blkdiscard -fv" v

def construct_erase_luks (v : String) : String := construct_cmd "cryptsetup erase -q" v

def construct_erase_opal (v : String) : String :=
  construct_cmd "cryptsetup erase --hw-opal-factory-reset" v

/-! ## Per-device actions (panic.c lines 46-84) -/

def erase_luks (v : String) (_mode : Nat) (w : World) : World :=
  system (construct_erase_luks v) w

/-- The function `erase_opal`, as written: its body calls `construct_erase_luks`. -/
def erase_opal (v : String) (_mode : Nat) (w : World) : World :=
  system (construct_erase_luks v) w

def blkdiscard_secure (v : String) (_mode : Nat) (w : World) : World :=
  system (construct_blkdiscard_secure v) w

def blkdiscard_insecure (v : String) (_mode : Nat) (w : World) : World :=
  system (construct_blkdiscard_insecure v) w

/-- The bytes `fwrite(msg, strlen(msg) + 1, sizeof(char), fp)` hands over: the
characters of `msg` and the terminating NUL. -/
def messageBytes (msg : String) : List Char := msg.toList ++ [Char.ofNat 0]

/-- The function `write_message_to_block_device`: returns the status and the
trace. -/
def write_message_to_block_device (env : Env) (msg v : String) (mode : Nat) (w : World) :
    Int × World :=
  if !S_ISBLK mode then (1, w)
  else if env.fopen w v then
    (0, w ++ [Event.fopen v true, Event.printf ("write_erase_notice: " ++ v ++ "\n"),
              Event.fwrite v (messageBytes msg), Event.fclose v])
  else (2, w ++ [Event.fopen v false])

/-- The notice text passed by `write_erase_notice`. -/
def eraseNotice : String :=
  "Panic handler: Device wiped [ data rendered permananetly irrecoverable through secure erasure ]\n"

def write_erase_notice (env : Env) (v : String) (mode : Nat) (w : World) : World :=
  (write_message_to_block_device env eraseNotice v mode w).2

/-! ## The directory walk (panic.c lines 98-133) -/

/-- The body of the `while((dp = readdir(dfd)) != NULL)` loop of `foreach`, run
over the names still to be read.  `sub` stands for the recursive call of
`foreach`; its status is dropped, as in the source.  `none` means the
recursive call did not return. -/
def foreachEntries {σ : Type} (fsOf : σ → FS) (f : String → Nat → σ → σ)
    (sub : String → Int → σ → Option (Int × σ)) (dir : String) (recurse : Int) :
    List String → σ → Option (Int × σ)
  | [], w => some (0, w)
  | d_name :: rest, w =>
    let filename_qfd := dir ++ "/" ++ d_name
    match (fsOf w).stat filename_qfd with
    | none => some (-2, w)
    | some st_mode =>
      if st_mode &&& S_IFMT = S_IFDIR then
        if recurse ≠ 0 then
          if d_name ≠ "." ∧ d_name ≠ ".." then
            match sub filename_qfd (if recurse ≠ -1 then recurse - 1 else -1) w with
            | none => none
            | some (_, w1) => foreachEntries fsOf f sub dir recurse rest w1
          else foreachEntries fsOf f sub dir recurse rest w
        else foreachEntries fsOf f sub dir recurse rest w
      else foreachEntries fsOf f sub dir recurse rest (f filename_qfd st_mode w)

/-- The function `foreach(dir, f, recurse)` over a state `σ` from which the
file system is read.  The first argument bounds the nesting of recursive
calls; `none` means that bound was reached. -/
def foreach {σ : Type} (fsOf : σ → FS) (f : String → Nat → σ → σ) :
    Nat → String → Int → σ → Option (Int × σ)
  | 0, _, _, _ => none
  | fuel + 1, dir, recurse, w =>
    match (fsOf w).opendir dir with
    | none => some (-1, w)
    | some names => foreachEntries fsOf f (foreach fsOf f fuel) dir recurse names w

/-! ## Configuration and argument parsing (panic.c lines 143-154, 192-251) -/

inductive SHUTDOWN_TYPE where
  | POWEROFF
  | DELAY_POWEROFF
  | REBOOT
  | NONE
  deriving DecidableEq, Repr

inductive ERASE_MODE where
  | DISCARD
  | OPAL
  | NONE
  deriving DecidableEq, Repr

/-- The five locals of `main` that the parse loop sets. -/
structure Config where
  shutdown_type : SHUTDOWN_TYPE
  shutdown_delay : Nat
  erase_mode : ERASE_MODE
  do_trim : Bool
  do_notify : Bool
  deriving DecidableEq, Repr

/-- The initial values of the locals (lines 192-198). -/
def Config.initial : Config :=
  { shutdown_type := SHUTDOWN_TYPE.POWEROFF, shutdown_delay := 0,
    erase_mode := ERASE_MODE.DISCARD, do_trim := true, do_notify := true }

/-- The C library's `isspace` in the "C" locale. -/
def isspace (c : Char) : Bool := c.toNat == 32 || (9 ≤ c.toNat && c.toNat ≤ 13)

/-- The digit loop of `atoi`: reads decimal digits, stops at the first other
character. -/
def atoiDigits : List Char → Nat → Nat
  | [], acc => acc
  | c :: cs, acc =>
    if 48 ≤ c.toNat ∧ c.toNat ≤ 57 then atoiDigits cs (10 * acc + (c.toNat - 48)) else acc

/-- The decimal number at the start of a string, as `strtol` reads it in base
10: skip white space, take an optional sign, read digits.  The value is exact. -/
def decimalValue (s : String) : Int :=
  match s.toList.dropWhile isspace with
  | [] => 0
  | c :: cs =>
    if c = '-' then - (atoiDigits cs 0 : Int)
    else if c = '+' then (atoiDigits cs 0 : Int)
    else (atoiDigits (c :: cs) 0 : Int)

/-- The largest `long` of 64-bit Linux. -/
def LONG_MAX : Int := 9223372036854775807
/-- The smallest `long` of 64-bit Linux. -/
def LONG_MIN : Int := -9223372036854775808

/-- The C library's `strtol(s, NULL, 10)`: the decimal value, saturated at
`LONG_MAX` and `LONG_MIN` when it does not fit a `long`. -/
def strtol10 (s : String) : Int :=
  if LONG_MAX < decimalValue s then LONG_MAX
  else if decimalValue s < LONG_MIN then LONG_MIN
  else decimalValue s

/-- Conversion of a `long` to `int`: the low 32 bits, read as signed. -/
def toInt32 (x : Int) : Int := (x + 2147483648) % 4294967296 - 2147483648

/-- The C library's `atoi` as glibc defines it: `(int) strtol(s, NULL, 10)`. -/
def atoi (s : String) : Int := toInt32 (strtol10 s)

/-- Conversion of an `int` to `unsigned int`. -/
def toUnsigned (i : Int) : Nat := (i % 4294967296).toNat

/-- How `printf("%i", u)` reads an `unsigned int`. -/
def toSigned (u : Nat) : Int := if u < 2147483648 then (u : Int) else (u : Int) - 4294967296

/-- How the parse loop ends. -/
inductive ParseResult where
  | ok (c : Config)
  | unsupported (arg : String)
  | nullArgument
  deriving DecidableEq, Repr

/-- The parse loop of `main` over `argv[a..argc-1]`.  `nullArgument` is the
case where `--delay` is the last argument: `argv[++a]` is then `argv[argc]`,
the terminating null pointer, and it is passed to `atoi`. -/
def parseLoop : List String → Config → ParseResult
  | [], c => ParseResult.ok c
  | arg :: rest, c =>
    if arg = "--delay" then
      match rest with
      | [] => ParseResult.nullArgument
      | v :: rest2 =>
        parseLoop rest2 { c with shutdown_type := SHUTDOWN_TYPE.DELAY_POWEROFF,
                                 shutdown_delay := toUnsigned (atoi v) }
    else if arg = "--immediate" then
      parseLoop rest { c with shutdown_type := SHUTDOWN_TYPE.POWEROFF }
    else if arg = "--reboot" then
      parseLoop rest { c with shutdown_type := SHUTDOWN_TYPE.REBOOT }
    else if arg = "--erase=OPAL" then
      parseLoop rest { c with erase_mode := ERASE_MODE.OPAL }
    else if arg = "--erase=DISCARD" then
      parseLoop rest { c with erase_mode := ERASE_MODE.DISCARD }
    else if arg = "--dbg=dry-run" then
      parseLoop rest { c with shutdown_type := SHUTDOWN_TYPE.NONE, erase_mode := ERASE_MODE.NONE }
    else if arg = "--dbg=no-erase" then
      parseLoop rest { c with erase_mode := ERASE_MODE.NONE }
    else if arg = "--dbg=keep-alive" then
      parseLoop rest { c with shutdown_type := SHUTDOWN_TYPE.NONE }
    else if arg = "--dbg=skip-trim" then
      parseLoop rest { c with do_trim := false }
    else if arg = "--dbg=skip-notify" then
      parseLoop rest { c with do_notify := false }
    else ParseResult.unsupported arg

/-! ## The erase stage (panic.c lines 253-285) -/

/-- One walk `foreach("/dev", f, 1)` of `main`; the status is dropped. -/
def walkDev (env : Env) (fuel : Nat) (f : String → Nat → World → World) (w : World) :
    Option World :=
  (foreach env.fs f fuel "/dev" 1 w).map Prod.snd

/-- The body of `case ERASE_MODE_DISCARD`: the crypto-erase walk, `sync()`,
the two discard walks if `do_trim`, the notice walk if `do_notify`, `sync()`. -/
def eraseDiscard (env : Env) (fuel : Nat) (do_trim do_notify : Bool) (w : World) :
    Option World :=
  (walkDev env fuel erase_luks w).bind fun w1 =>
  (if do_trim then
      (walkDev env fuel blkdiscard_secure (sync w1)).bind (walkDev env fuel blkdiscard_insecure)
    else some (sync w1)).bind fun w3 =>
  (if do_notify then walkDev env fuel (write_erase_notice env) w3 else some w3).bind fun w4 =>
  some (sync w4)

/-- The `switch(erase_mode)` of `main`. -/
def eraseStage (env : Env) (fuel : Nat) (c : Config) (w : World) : Option World :=
  match c.erase_mode with
  | ERASE_MODE.OPAL =>
    (walkDev env fuel erase_opal w).bind (eraseDiscard env fuel c.do_trim c.do_notify)
  | ERASE_MODE.DISCARD => eraseDiscard env fuel c.do_trim c.do_notify w
  | ERASE_MODE.NONE =>
    some (sync (w ++ [Event.printf
      "[debug] ERASE_MODE_NONE: Refusing to perform destructive actions.\n"]))

/-! ## The shutdown stage (panic.c lines 287-306) -/

/-- The call `sleep(n)`: it returns the seconds left unslept, `0` when it slept
in full.  The environment says how many were left; a call never reports more
than were requested. -/
def sleepCall (env : Env) (w : World) (n : Nat) : Nat := min (env.sleep w n) n

/-- The loop `while(shutdown_delay) shutdown_delay = sleep(shutdown_delay);`.
The first argument bounds the number of `sleep` calls. -/
def sleepLoop (env : Env) : Nat → Nat → World → Option World
  | _, 0, w => some w
  | 0, _ + 1, _ => none
  | fuel + 1, d + 1, w =>
    sleepLoop env fuel (sleepCall env w (d + 1))
      (w ++ [Event.sleep (d + 1) (sleepCall env w (d + 1))])

/-- The `switch(shutdown_type)` of `main`.  A `reboot` call is recorded; when
it succeeds the process ends there. -/
def shutdownStage (env : Env) (fuel : Nat) (c : Config) (w : World) : Option World :=
  match c.shutdown_type with
  | SHUTDOWN_TYPE.POWEROFF => some (w ++ [Event.reboot RebootCmd.RB_POWER_OFF])
  | SHUTDOWN_TYPE.DELAY_POWEROFF =>
    (sleepLoop env fuel c.shutdown_delay
      (w ++ [Event.printf ("Waiting " ++ toString (toSigned c.shutdown_delay) ++
        " seconds before poweroff...\n")])).map
      (fun w1 => w1 ++ [Event.reboot RebootCmd.RB_POWER_OFF])
  | SHUTDOWN_TYPE.REBOOT => some (w ++ [Event.reboot RebootCmd.RB_AUTOBOOT])
  | SHUTDOWN_TYPE.NONE => some w

/-! ## `main` (panic.c lines 156-308) -/

/-- The policy constant of line 15. -/
def LOCK_BEFORE_ELEVATE : Bool := true

/-- The function `lock_screen`. -/
def lock_screen (w : World) : World := system "xflock4" w

/-- The function `construct_args` with `cmd = "sudo"`. -/
def construct_args (cmd : String) (argv : List String) : List String := cmd :: argv

/-- How a run of `main` ends. -/
inductive Outcome where
  | returned (status : Int) (trace : World)
  | fault (trace : World)
  | unfinished
  deriving DecidableEq, Repr

/-- The function `main`, started with an empty trace.  `argv` includes
`argv[0]`.  `fault` is `atoi` applied to the null pointer; `unfinished` means
`fuel` was too small for a walk or for the sleep loop.  In the non-root branch
`execvp` returns only when it fails, with `-1`. -/
def main (env : Env) (fuel : Nat) (argv : List String) : Outcome :=
  if env.geteuid ≠ 0 then
    let w := if LOCK_BEFORE_ELEVATE then lock_screen [] else []
    Outcome.returned (-1) (w ++ [Event.execvp "sudo" (construct_args "sudo" argv)])
  else
    let w := lock_screen []
    match parseLoop (argv.drop 1) Config.initial with
    | ParseResult.nullArgument => Outcome.fault w
    | ParseResult.unsupported arg =>
      Outcome.returned 1 (w ++ [Event.printf ("Unsupported argument: " ++ arg ++ "\n")])
    | ParseResult.ok c =>
      match (eraseStage env fuel c w).bind (shutdownStage env fuel c) with
      | none => Outcome.unfinished
      | some w1 => Outcome.returned 0 w1

/-! ## Specification-side definitions -/

/-- Apply `f` to each leaf of a list, in order. -/
def visit {σ : Type} (f : String → Nat → σ → σ) : List (String × Nat) → σ → σ
  | [], s => s
  | x :: l, s => visit f l (f x.1 x.2 s)

/-- A finite directory listing, entry by entry in `readdir` order: a
non-directory, a `.` or `..` entry, or a subdirectory with its own listing. -/
inductive Listing where
  | nil
  | file (name : String) (mode : Nat) (rest : Listing)
  | dots (name : String) (mode : Nat) (rest : Listing)
  | dir (name : String) (mode : Nat) (sub : Listing) (rest : Listing)
  deriving Repr

/-- The names `readdir` returns for a listing. -/
def Listing.names : Listing → List String
  | Listing.nil => []
  | Listing.file n _ rest => n :: rest.names
  | Listing.dots n _ rest => n :: rest.names
  | Listing.dir n _ _ rest => n :: rest.names

/-- The number of directory levels below a listing. -/
def Listing.depth : Listing → Nat
  | Listing.nil => 0
  | Listing.file _ _ rest => rest.depth
  | Listing.dots _ _ rest => rest.depth
  | Listing.dir _ _ sub rest => max (sub.depth + 1) rest.depth

/-- The file system `fs` shows the entries of listing `l` in directory `p`:
every entry has readable metadata of the right kind, `.` and `..` are
directories, and every subdirectory opens to its own listing. -/
def Shows (fs : FS) : String → Listing → Prop
  | _, Listing.nil => True
  | p, Listing.file n m rest =>
    fs.stat (p ++ "/" ++ n) = some m ∧ m &&& S_IFMT ≠ S_IFDIR ∧ Shows fs p rest
  | p, Listing.dots n m rest =>
    (n = "." ∨ n = "..") ∧ fs.stat (p ++ "/" ++ n) = some m ∧ m &&& S_IFMT = S_IFDIR ∧
      Shows fs p rest
  | p, Listing.dir n m sub rest =>
    n ≠ "." ∧ n ≠ ".." ∧ fs.stat (p ++ "/" ++ n) = some m ∧ m &&& S_IFMT = S_IFDIR ∧
      fs.opendir (p ++ "/" ++ n) = some sub.names ∧ Shows fs (p ++ "/" ++ n) sub ∧
      Shows fs p rest

/-- The directory `root` of `fs` is the finite tree `l`. -/
def IsTree (fs : FS) (root : String) (l : Listing) : Prop :=
  fs.opendir root = some l.names ∧ Shows fs root l

/-- The non-directory entries of a tree in walk order, each with the number of
directory levels between it and the root (direct children: `lvl`), its path
and its mode. -/
def Listing.files : String → Nat → Listing → List (Nat × String × Nat)
  | _, _, Listing.nil => []
  | p, lvl, Listing.file n m rest => (lvl, p ++ "/" ++ n, m) :: Listing.files p lvl rest
  | p, lvl, Listing.dots _ _ rest => Listing.files p lvl rest
  | p, lvl, Listing.dir n _ sub rest =>
    Listing.files (p ++ "/" ++ n) (lvl + 1) sub ++ Listing.files p lvl rest

/-- The non-directory entries at most `b` directory levels below the root. -/
def Listing.leavesWithin (root : String) (b : Nat) (l : Listing) : List (String × Nat) :=
  ((l.files root 0).filter (fun e => e.1 ≤ b)).map Prod.snd

/-- All non-directory entries of the tree. -/
def Listing.allLeaves (root : String) (l : Listing) : List (String × Nat) :=
  (l.files root 0).map Prod.snd

/-- A finite directory listing in which some entries have unreadable
metadata: as `Listing`, with one more kind of entry, on which `stat` fails. -/
inductive Damaged where
  | nil
  | file (name : String) (mode : Nat) (rest : Damaged)
  | dots (name : String) (mode : Nat) (rest : Damaged)
  | dir (name : String) (mode : Nat) (sub : Damaged) (rest : Damaged)
  | unreadable (name : String) (rest : Damaged)
  deriving Repr

/-- The names `readdir` returns for a listing. -/
def Damaged.names : Damaged → List String
  | Damaged.nil => []
  | Damaged.file n _ rest => n :: rest.names
  | Damaged.dots n _ rest => n :: rest.names
  | Damaged.dir n _ _ rest => n :: rest.names
  | Damaged.unreadable n rest => n :: rest.names

/-- The number of directory levels below a listing. -/
def Damaged.depth : Damaged → Nat
  | Damaged.nil => 0
  | Damaged.file _ _ rest => rest.depth
  | Damaged.dots _ _ rest => rest.depth
  | Damaged.dir _ _ sub rest => max (sub.depth + 1) rest.depth
  | Damaged.unreadable _ rest => rest.depth

/-- Some entry of the listing itself, not of a subdirectory, has unreadable
metadata. -/
def Damaged.fails : Damaged → Bool
  | Damaged.nil => false
  | Damaged.file _ _ rest => rest.fails
  | Damaged.dots _ _ rest => rest.fails
  | Damaged.dir _ _ _ rest => rest.fails
  | Damaged.unreadable _ _ => true

/-- The file system `fs` shows the entries of listing `l` in directory `p`,
`stat` failing exactly on the unreadable ones. -/
def ShowsDamaged (fs : FS) : String → Damaged → Prop
  | _, Damaged.nil => True
  | p, Damaged.file n m rest =>
    fs.stat (p ++ "/" ++ n) = some m ∧ m &&& S_IFMT ≠ S_IFDIR ∧ ShowsDamaged fs p rest
  | p, Damaged.dots n m rest =>
    (n = "." ∨ n = "..") ∧ fs.stat (p ++ "/" ++ n) = some m ∧ m &&& S_IFMT = S_IFDIR ∧
      ShowsDamaged fs p rest
  | p, Damaged.dir n m sub rest =>
    n ≠ "." ∧ n ≠ ".." ∧ fs.stat (p ++ "/" ++ n) = some m ∧ m &&& S_IFMT = S_IFDIR ∧
      fs.opendir (p ++ "/" ++ n) = some sub.names ∧ ShowsDamaged fs (p ++ "/" ++ n) sub ∧
      ShowsDamaged fs p rest
  | p, Damaged.unreadable n rest => fs.stat (p ++ "/" ++ n) = none ∧ ShowsDamaged fs p rest

/-- The directory `root` of `fs` is the finite tree `l`. -/
def IsDamagedTree (fs : FS) (root : String) (l : Damaged) : Prop :=
  fs.opendir root = some l.names ∧ ShowsDamaged fs root l

/-- The leaves a walk with remaining budget `r` reaches, among entries whose
levels start at `lvl`. -/
def reach (r : Int) (lvl : Nat) (es : List (Nat × String × Nat)) : List (String × Nat) :=
  (es.filter (fun e => decide (r = -1 ∨ (e.1 : Int) ≤ lvl + r))).map Prod.snd

/-- A recognized flag of the command line, `--delay` with its seconds value. -/
inductive Flag where
  | delay (n : Nat)
  | immediate
  | reboot
  | eraseOpal
  | eraseDiscard
  | dryRun
  | noErase
  | keepAlive
  | skipTrim
  | skipNotify
  deriving DecidableEq, Repr

/-- The arguments that spell a flag; `--delay n` is followed by the decimal text of `n`. -/
def Flag.args : Flag → List String
  | Flag.delay n => ["--delay", toString n]
  | Flag.immediate => ["--immediate"]
  | Flag.reboot => ["--reboot"]
  | Flag.eraseOpal => ["--erase=OPAL"]
  | Flag.eraseDiscard => ["--erase=DISCARD"]
  | Flag.dryRun => ["--dbg=dry-run"]
  | Flag.noErase => ["--dbg=no-erase"]
  | Flag.keepAlive => ["--dbg=keep-alive"]
  | Flag.skipTrim => ["--dbg=skip-trim"]
  | Flag.skipNotify => ["--dbg=skip-notify"]

/-- The effect the specification gives each flag (section 6, CLI surface). -/
def Flag.effect (c : Config) : Flag → Config
  | Flag.delay n => { c with shutdown_type := SHUTDOWN_TYPE.DELAY_POWEROFF, shutdown_delay := n }
  | Flag.immediate => { c with shutdown_type := SHUTDOWN_TYPE.POWEROFF }
  | Flag.reboot => { c with shutdown_type := SHUTDOWN_TYPE.REBOOT }
  | Flag.eraseOpal => { c with erase_mode := ERASE_MODE.OPAL }
  | Flag.eraseDiscard => { c with erase_mode := ERASE_MODE.DISCARD }
  | Flag.dryRun => { c with shutdown_type := SHUTDOWN_TYPE.NONE, erase_mode := ERASE_MODE.NONE }
  | Flag.noErase => { c with erase_mode := ERASE_MODE.NONE }
  | Flag.keepAlive => { c with shutdown_type := SHUTDOWN_TYPE.NONE }
  | Flag.skipTrim => { c with do_trim := false }
  | Flag.skipNotify => { c with do_notify := false }

/-- The argument list that spells a sequence of flags. -/
def Flag.render : List Flag → List String
  | [] => []
  | fl :: fls => fl.args ++ Flag.render fls

/-- The strings the parse loop compares each argument with. -/
def recognizedFlags : List String :=
  ["--delay", "--immediate", "--reboot", "--erase=OPAL", "--erase=DISCARD", "--dbg=dry-run",
   "--dbg=no-erase", "--dbg=keep-alive", "--dbg=skip-trim", "--dbg=skip-notify"]

/-- The seconds value of a flag fits an `int`. -/
def Flag.fitsInt : Flag → Prop
  | Flag.delay n => n < 2147483648
  | _ => True

/-- The callback that records each visited leaf. -/
def recordLeaf (p : String) (m : Nat) (acc : List (String × Nat)) : List (String × Nat) :=
  acc ++ [(p, m)]

/-- The leaf list `L` of one walk `foreach("/dev", f, 1)` over the file system
`fs`: what the walk hands to its callback, in order. -/
def devLeaves (fs : FS) : List (String × Nat) :=
  match foreach (fun _ => fs) recordLeaf 2 "/dev" 1 [] with
  | some res => res.2
  | none => []

/-- The call sequence the specification gives the Discard stage over the leaf
list `L`: crypto-erase every leaf, barrier, then (if `do_trim`) secure discard
of every leaf followed by plain discard of every leaf, then (if `do_notify`)
the notice on every leaf, then a barrier. -/
def discardSequence (env : Env) (L : List (String × Nat)) (do_trim do_notify : Bool)
    (w : World) : World :=
  let w1 := sync (visit erase_luks L w)
  let w2 := if do_trim then visit blkdiscard_insecure L (visit blkdiscard_secure L w1) else w1
  let w3 := if do_notify then visit (write_erase_notice env) L w2 else w2
  sync w3

/-- An event issued by `write_erase_notice`. -/
def Event.isNotice : Event → Bool
  | Event.fopen _ _ => true
  | Event.printf _ => true
  | Event.fwrite _ _ => true
  | Event.fclose _ => true
  | _ => false

/-- A power transition: a `reboot` call. -/
def Event.isPower : Event → Bool
  | Event.reboot _ => true
  | _ => false

/-- A `sleep` call. -/
def Event.isSleep : Event → Bool
  | Event.sleep _ _ => true
  | _ => false

/-- The number of `sleep` calls in a trace. -/
def sleepCalls (w : World) : Nat := w.countP Event.isSleep

/-- The events of one `sleep` call per pair (requested, remaining). -/
def sleepEvents (sleeps : List (Nat × Nat)) : List Event :=
  sleeps.map (fun q => Event.sleep q.1 q.2)

/-- The seconds actually slept: requested minus reported remainder, summed. -/
def sleptSeconds (sleeps : List (Nat × Nat)) : Nat :=
  (sleeps.map (fun q => q.1 - q.2)).sum

/-- The events the shutdown stage issues for a configuration, given the
`sleep` calls of the delay loop. -/
def shutdownEvents (c : Config) (sleeps : List (Nat × Nat)) : List Event :=
  match c.shutdown_type with
  | SHUTDOWN_TYPE.POWEROFF => [Event.reboot RebootCmd.RB_POWER_OFF]
  | SHUTDOWN_TYPE.DELAY_POWEROFF =>
    [Event.printf ("Waiting " ++ toString (toSigned c.shutdown_delay) ++
      " seconds before poweroff...\n")] ++ sleepEvents sleeps ++
      [Event.reboot RebootCmd.RB_POWER_OFF]
  | SHUTDOWN_TYPE.REBOOT => [Event.reboot RebootCmd.RB_AUTOBOOT]
  | SHUTDOWN_TYPE.NONE => []

/-- No power transition has been issued in a trace. -/
def noPower (w : World) : Prop := ∀ e ∈ w, e.isPower = false

/-- The events of the Discard stage over the leaf list `L`, with `notices`
standing for what the notice walk issued. -/
def discardEvents (L : List (String × Nat)) (do_trim : Bool) (notices : List Event) :
    List Event :=
  L.map (fun x => Event.system (construct_erase_luks x.1)) ++ [Event.sync] ++
    (if do_trim then
      L.map (fun x => Event.system (construct_blkdiscard_secure x.1)) ++
      L.map (fun x => Event.system (construct_blkdiscard_insecure x.1))
     else []) ++ notices ++ [Event.sync]

/-! ## Concrete environments used as witnesses -/

/-- A cyclic file system: every directory lists `.` and `..`, both of which
open again as directories without end.  `/dev` holds the block device `x0`
and the directory `mapper`, which holds the block device `y0`. -/
def fsCyclic : FS where
  opendir := fun p =>
    if 'm' ∈ p.toList then some [".", "..", "y0"] else some [".", "x0", "mapper", ".."]
  stat := fun p =>
    if p.toList.getLast? = some '.' ∨ p.toList.getLast? = some 'r' then some S_IFDIR
    else some S_IFBLK

/-- The finite tree below `/dev` in `fsCyclic`. -/
def treeCyclic : Listing :=
  Listing.dots "." S_IFDIR
    (Listing.file "x0" S_IFBLK
      (Listing.dir "mapper" S_IFDIR
        (Listing.dots "." S_IFDIR (Listing.dots ".." S_IFDIR (Listing.file "y0" S_IFBLK Listing.nil)))
        (Listing.dots ".." S_IFDIR Listing.nil)))

/-- An environment in which `/dev` cannot be opened, `fopen` fails and the
first two `sleep` calls of a run are interrupted at once. -/
def envHostile : Env where
  geteuid := 0
  fs := fun _ => { opendir := fun _ => none, stat := fun _ => none }
  fopen := fun _ _ => false
  sleep := fun w n => if sleepCalls w < 2 then n else 0

/-- A file system in which `/dev` holds the one block device `x0`. -/
def fsOne : FS where
  opendir := fun p => if p = "/dev" then some [".", "..", "x0"] else none
  stat := fun p =>
    if p = "/dev/." ∨ p = "/dev/.." then some S_IFDIR
    else if p = "/dev/x0" then some S_IFBLK else none

/-- A run as root over `fsOne` in which every `fopen` succeeds. -/
def envOne : Env where
  geteuid := 0
  fs := fun _ => fsOne
  fopen := fun _ _ => true
  sleep := fun _ n => n - 2

/-- A file system in which `/dev` holds a block device `x0` and a subdirectory
`mapper` whose entry `y0` has unreadable metadata. -/
def fsBroken : FS where
  opendir := fun p =>
    if p = "/dev" then some [".", "..", "mapper", "x0"]
    else if p = "/dev/mapper" then some [".", "..", "y0"] else none
  stat := fun p =>
    if p = "/dev/." ∨ p = "/dev/.." ∨ p = "/dev/mapper" ∨ p = "/dev/mapper/." ∨
        p = "/dev/mapper/.." then some S_IFDIR
    else if p = "/dev/x0" then some S_IFBLK else none

/-- The listing of `/dev/mapper` in `fsBroken`. -/
def treeMapperBroken : Damaged :=
  Damaged.dots "." S_IFDIR (Damaged.dots ".." S_IFDIR (Damaged.unreadable "y0" Damaged.nil))

/-- The tree below `/dev` in `fsBroken`. -/
def treeBroken : Damaged :=
  Damaged.dots "." S_IFDIR
    (Damaged.dots ".." S_IFDIR
      (Damaged.dir "mapper" S_IFDIR treeMapperBroken (Damaged.file "x0" S_IFBLK Damaged.nil)))

/-! # Theorems -/

/-! ## Parsing -/

theorem digitChar_toNat (k : Nat) (hk : k < 10) : (Nat.digitChar k).toNat = 48 + k := by
  interval_cases k <;> rfl

theorem atoiDigits_toDigitsCore (fuel : Nat) :
    ∀ n ds, n < fuel → ∃ xs : List Char, Nat.toDigitsCore 10 fuel n ds = xs ++ ds ∧
      (∃ c cs, xs = c :: cs ∧ 48 ≤ c.toNat ∧ c.toNat ≤ 57) ∧
      ∀ rest acc, atoiDigits (xs ++ rest) acc = atoiDigits rest (acc * 10 ^ xs.length + n) := by
  induction fuel with
  | zero => intro n ds h; omega
  | succ fuel ih =>
    intro n ds hn
    have hd := digitChar_toNat (n % 10) (Nat.mod_lt _ (by decide))
    unfold Nat.toDigitsCore
    by_cases h0 : n / 10 = 0
    · simp only [h0, if_true]
      refine ⟨[Nat.digitChar (n % 10)], rfl, ⟨_, [], rfl, by omega, by omega⟩, ?_⟩
      intro rest acc
      have hlt : n < 10 := by omega
      have hmod : n % 10 = n := Nat.mod_eq_of_lt hlt
      simp only [List.singleton_append, atoiDigits, List.length_singleton, pow_one]
      rw [if_pos (by omega)]
      congr 1
      omega
    · simp only [h0, if_false]
      obtain ⟨xs, hxs, ⟨c, cs, hc, hc1, hc2⟩, hval⟩ :=
        ih (n / 10) (Nat.digitChar (n % 10) :: ds) (by omega)
      refine ⟨xs ++ [Nat.digitChar (n % 10)], ?_, ⟨c, cs ++ [Nat.digitChar (n % 10)], ?_, hc1, hc2⟩, ?_⟩
      · rw [hxs]; simp
      · rw [hc]; simp
      · intro rest acc
        rw [List.append_assoc, hval]
        simp only [List.singleton_append, atoiDigits, List.length_append, List.length_singleton]
        rw [if_pos (by omega)]
        congr 1
        have hdig : (Nat.digitChar (n % 10)).toNat - 48 = n % 10 := by omega
        rw [pow_succ, hdig]
        have := Nat.div_add_mod n 10
        linarith

theorem decimalValue_toString (n : Nat) : decimalValue (toString n) = (n : Int) := by
  obtain ⟨xs, hxs, ⟨c, cs, hc, hc1, hc2⟩, hval⟩ := atoiDigits_toDigitsCore (n + 1) n [] (by omega)
  have hs : (toString n).toList = xs := by
    show (Nat.repr n).toList = xs
    simp only [Nat.repr, Nat.toDigits, hxs, List.append_nil]
    rfl
  have hsp : isspace c = false := by
    simp only [isspace, Bool.or_eq_false_iff, beq_eq_false_iff_ne, ne_eq, Bool.and_eq_false_iff,
      decide_eq_false_iff_not]
    omega
  have hminus : c ≠ '-' := by
    intro h; rw [h] at hc1; revert hc1; decide
  have hplus : c ≠ '+' := by
    intro h; rw [h] at hc1; revert hc1; decide
  unfold decimalValue
  rw [hs, hc, List.dropWhile_cons, hsp]
  simp only [Bool.false_eq_true, if_false, hminus, hplus]
  have := hval [] 0
  rw [List.append_nil, hc] at this
  rw [this]
  simp [atoiDigits]

theorem atoi_toString (n : Nat) (h : n < 2147483648) : atoi (toString n) = (n : Int) := by
  unfold atoi strtol10
  rw [decimalValue_toString]
  unfold LONG_MAX LONG_MIN toInt32
  rw [if_neg (by omega), if_neg (by omega)]
  omega

theorem toUnsigned_natCast (n : Nat) (h : n < 4294967296) : toUnsigned (n : Int) = n := by
  unfold toUnsigned
  rw [Int.emod_eq_of_lt (by omega) (by omega)]
  rfl

theorem parseLoop_delay_nil (c : Config) :
    parseLoop ["--delay"] c = ParseResult.nullArgument := rfl

theorem parseLoop_delay (v : String) (rest : List String) (c : Config) :
    parseLoop ("--delay" :: v :: rest) c =
      parseLoop rest { c with shutdown_type := SHUTDOWN_TYPE.DELAY_POWEROFF,
                              shutdown_delay := toUnsigned (atoi v) } := rfl

theorem parseLoop_immediate (rest : List String) (c : Config) :
    parseLoop ("--immediate" :: rest) c =
      parseLoop rest { c with shutdown_type := SHUTDOWN_TYPE.POWEROFF } := by
  conv_lhs => unfold parseLoop
  rw [if_neg (by decide), if_pos rfl]

theorem parseLoop_reboot (rest : List String) (c : Config) :
    parseLoop ("--reboot" :: rest) c =
      parseLoop rest { c with shutdown_type := SHUTDOWN_TYPE.REBOOT } := by
  conv_lhs => unfold parseLoop
  rw [if_neg (by decide), if_neg (by decide), if_pos rfl]

theorem parseLoop_eraseOpal (rest : List String) (c : Config) :
    parseLoop ("--erase=OPAL" :: rest) c =
      parseLoop rest { c with erase_mode := ERASE_MODE.OPAL } := by
  conv_lhs => unfold parseLoop
  rw [if_neg (by decide), if_neg (by decide), if_neg (by decide), if_pos rfl]

theorem parseLoop_eraseDiscard (rest : List String) (c : Config) :
    parseLoop ("--erase=DISCARD" :: rest) c =
      parseLoop rest { c with erase_mode := ERASE_MODE.DISCARD } := by
  conv_lhs => unfold parseLoop
  rw [if_neg (by decide), if_neg (by decide), if_neg (by decide), if_neg (by decide), if_pos rfl]

theorem parseLoop_dryRun (rest : List String) (c : Config) :
    parseLoop ("--dbg=dry-run" :: rest) c =
      parseLoop rest { c with shutdown_type := SHUTDOWN_TYPE.NONE,
                              erase_mode := ERASE_MODE.NONE } := by
  conv_lhs => unfold parseLoop
  rw [if_neg (by decide), if_neg (by decide), if_neg (by decide), if_neg (by decide), if_neg (by decide), if_pos rfl]

theorem parseLoop_noErase (rest : List String) (c : Config) :
    parseLoop ("--dbg=no-erase" :: rest) c =
      parseLoop rest { c with erase_mode := ERASE_MODE.NONE } := by
  conv_lhs => unfold parseLoop
  rw [if_neg (by decide), if_neg (by decide), if_neg (by decide), if_neg (by decide), if_neg (by decide), if_neg (by decide), if_pos rfl]

theorem parseLoop_keepAlive (rest : List String) (c : Config) :
    parseLoop ("--dbg=keep-alive" :: rest) c =
      parseLoop rest { c with shutdown_type := SHUTDOWN_TYPE.NONE } := by
  conv_lhs => unfold parseLoop
  rw [if_neg (by decide), if_neg (by decide), if_neg (by decide), if_neg (by decide), if_neg (by decide), if_neg (by decide), if_neg (by decide), if_pos rfl]

theorem parseLoop_skipTrim (rest : List String) (c : Config) :
    parseLoop ("--dbg=skip-trim" :: rest) c = parseLoop rest { c with do_trim := false } := by
  conv_lhs => unfold parseLoop
  rw [if_neg (by decide), if_neg (by decide), if_neg (by decide), if_neg (by decide), if_neg (by decide), if_neg (by decide), if_neg (by decide), if_neg (by decide), if_pos rfl]

theorem parseLoop_skipNotify (rest : List String) (c : Config) :
    parseLoop ("--dbg=skip-notify" :: rest) c = parseLoop rest { c with do_notify := false } := by
  conv_lhs => unfold parseLoop
  rw [if_neg (by decide), if_neg (by decide), if_neg (by decide), if_neg (by decide), if_neg (by decide), if_neg (by decide), if_neg (by decide), if_neg (by decide), if_neg (by decide), if_pos rfl]

theorem parseLoop_unrecognized (bad : String) (post : List String) (c : Config)
    (hbad : bad ∉ recognizedFlags) :
    parseLoop (bad :: post) c = ParseResult.unsupported bad := by
  have h1 : ¬ bad = "--delay" := fun h => hbad (by rw [h]; decide)
  have h2 : ¬ bad = "--immediate" := fun h => hbad (by rw [h]; decide)
  have h3 : ¬ bad = "--reboot" := fun h => hbad (by rw [h]; decide)
  have h4 : ¬ bad = "--erase=OPAL" := fun h => hbad (by rw [h]; decide)
  have h5 : ¬ bad = "--erase=DISCARD" := fun h => hbad (by rw [h]; decide)
  have h6 : ¬ bad = "--dbg=dry-run" := fun h => hbad (by rw [h]; decide)
  have h7 : ¬ bad = "--dbg=no-erase" := fun h => hbad (by rw [h]; decide)
  have h8 : ¬ bad = "--dbg=keep-alive" := fun h => hbad (by rw [h]; decide)
  have h9 : ¬ bad = "--dbg=skip-trim" := fun h => hbad (by rw [h]; decide)
  have h10 : ¬ bad = "--dbg=skip-notify" := fun h => hbad (by rw [h]; decide)
  unfold parseLoop
  rw [if_neg h1, if_neg h2, if_neg h3, if_neg h4, if_neg h5, if_neg h6, if_neg h7, if_neg h8,
    if_neg h9, if_neg h10]

theorem parseLoop_render (flags : List Flag) :
    ∀ c : Config, (∀ fl ∈ flags, fl.fitsInt) →
      parseLoop (Flag.render flags) c = ParseResult.ok (flags.foldl Flag.effect c) := by
  induction flags with
  | nil => intro c _; rfl
  | cons fl fls ih =>
    intro c h
    have hfl := h fl (List.mem_cons_self _ _)
    have hrest := fun c2 => ih c2 (fun x hx => h x (List.mem_cons_of_mem _ hx))
    cases fl with
    | delay n =>
      have hn : n < 2147483648 := hfl
      simp only [Flag.render, Flag.args, List.cons_append, List.nil_append, List.foldl_cons,
        Flag.effect]
      rw [parseLoop_delay, atoi_toString n hn, toUnsigned_natCast n (by omega)]
      exact hrest _
    | immediate => exact (parseLoop_immediate _ c).trans (hrest _)
    | reboot => exact (parseLoop_reboot _ c).trans (hrest _)
    | eraseOpal => exact (parseLoop_eraseOpal _ c).trans (hrest _)
    | eraseDiscard => exact (parseLoop_eraseDiscard _ c).trans (hrest _)
    | dryRun => exact (parseLoop_dryRun _ c).trans (hrest _)
    | noErase => exact (parseLoop_noErase _ c).trans (hrest _)
    | keepAlive => exact (parseLoop_keepAlive _ c).trans (hrest _)
    | skipTrim => exact (parseLoop_skipTrim _ c).trans (hrest _)
    | skipNotify => exact (parseLoop_skipNotify _ c).trans (hrest _)

theorem parseLoop_append_aux (n : Nat) :
    ∀ (pre rest : List String) (c0 c : Config), pre.length ≤ n →
      parseLoop pre c0 = ParseResult.ok c → parseLoop (pre ++ rest) c0 = parseLoop rest c := by
  induction n with
  | zero =>
    intro pre rest c0 c hlen h
    have : pre = [] := List.length_eq_zero.mp (by omega)
    subst this
    simp only [parseLoop, ParseResult.ok.injEq] at h
    subst h
    rfl
  | succ n ih =>
    intro pre rest c0 c hlen h
    cases pre with
    | nil =>
      simp only [parseLoop, ParseResult.ok.injEq] at h
      subst h
      rfl
    | cons a pre1 =>
      have hlen1 : pre1.length ≤ n := by simpa using hlen
      rw [List.cons_append]
      by_cases hrec : a ∈ recognizedFlags
      · simp only [recognizedFlags, List.mem_cons, List.mem_singleton, List.not_mem_nil,
          or_false] at hrec
        rcases hrec with h1 | h1 | h1 | h1 | h1 | h1 | h1 | h1 | h1 | h1 <;> subst h1
        · cases pre1 with
          | nil => rw [parseLoop_delay_nil] at h; cases h
          | cons v pre2 =>
            rw [parseLoop_delay] at h
            rw [List.cons_append, parseLoop_delay]
            exact ih pre2 rest _ c (by simp at hlen1; omega) h
        · rw [parseLoop_immediate] at h ⊢; exact ih pre1 rest _ c hlen1 h
        · rw [parseLoop_reboot] at h ⊢; exact ih pre1 rest _ c hlen1 h
        · rw [parseLoop_eraseOpal] at h ⊢; exact ih pre1 rest _ c hlen1 h
        · rw [parseLoop_eraseDiscard] at h ⊢; exact ih pre1 rest _ c hlen1 h
        · rw [parseLoop_dryRun] at h ⊢; exact ih pre1 rest _ c hlen1 h
        · rw [parseLoop_noErase] at h ⊢; exact ih pre1 rest _ c hlen1 h
        · rw [parseLoop_keepAlive] at h ⊢; exact ih pre1 rest _ c hlen1 h
        · rw [parseLoop_skipTrim] at h ⊢; exact ih pre1 rest _ c hlen1 h
        · rw [parseLoop_skipNotify] at h ⊢; exact ih pre1 rest _ c hlen1 h
      · rw [parseLoop_unrecognized a pre1 c0 hrec] at h
        cases h

theorem parseLoop_append (pre rest : List String) (c0 c : Config)
    (h : parseLoop pre c0 = ParseResult.ok c) :
    parseLoop (pre ++ rest) c0 = parseLoop rest c :=
  parseLoop_append_aux pre.length pre rest c0 c (le_refl _) h

/-! ## The walk -/

theorem visit_append {σ : Type} (f : String → Nat → σ → σ) (l1 l2 : List (String × Nat)) :
    ∀ s, visit f (l1 ++ l2) s = visit f l2 (visit f l1 s) := by
  induction l1 with
  | nil => intro s; rfl
  | cons x l ih => intro s; exact ih _

theorem files_level_ge (l : Listing) :
    ∀ p lvl e, e ∈ Listing.files p lvl l → lvl ≤ e.1 := by
  induction l with
  | nil => intro p lvl e h; simp [Listing.files] at h
  | file n m rest ih =>
    intro p lvl e h
    simp only [Listing.files, List.mem_cons] at h
    rcases h with h | h
    · rw [h]
    · exact ih p lvl e h
  | dots n m rest ih => intro p lvl e h; exact ih p lvl e h
  | dir n m sub rest ihs ihr =>
    intro p lvl e h
    simp only [Listing.files, List.mem_append] at h
    rcases h with h | h
    · have := ihs _ _ e h; omega
    · exact ihr p lvl e h

theorem reach_append (r : Int) (lvl : Nat) (a b : List (Nat × String × Nat)) :
    reach r lvl (a ++ b) = reach r lvl a ++ reach r lvl b := by
  simp [reach]

theorem reach_zero_deeper (lvl : Nat) (l : Listing) (p : String) :
    reach 0 lvl (Listing.files p (lvl + 1) l) = [] := by
  unfold reach
  rw [List.map_eq_nil_iff, List.filter_eq_nil_iff]
  intro e he
  have := files_level_ge l p (lvl + 1) e he
  simp only [decide_eq_true_eq]
  omega

theorem reach_descend (r : Int) (hr : r ≠ 0) (lvl : Nat) (es : List (Nat × String × Nat)) :
    reach (if r ≠ -1 then r - 1 else -1) (lvl + 1) es = reach r lvl es := by
  unfold reach
  congr 1
  apply List.filter_congr
  intro e _
  by_cases h : r = -1
  · simp [h]
  · simp only [h, ne_eq, not_false_eq_true, if_true, false_or]
    congr 1
    apply propext
    constructor <;> intro h2 <;> push_cast at h2 ⊢ <;> omega

section walk
variable {σ : Type} (fsOf : σ → FS) (f : String → Nat → σ → σ)

theorem foreachEntries_stat_fail (sub : String → Int → σ → Option (Int × σ)) (dir : String)
    (recurse : Int) (d_name : String) (rest : List String) (w : σ)
    (hst : (fsOf w).stat (dir ++ "/" ++ d_name) = none) :
    foreachEntries fsOf f sub dir recurse (d_name :: rest) w = some (-2, w) := by
  unfold foreachEntries
  simp only [hst]

theorem foreachEntries_leaf (sub : String → Int → σ → Option (Int × σ)) (dir : String)
    (recurse : Int) (d_name : String) (rest : List String) (w : σ) (st_mode : Nat)
    (hst : (fsOf w).stat (dir ++ "/" ++ d_name) = some st_mode)
    (hmode : st_mode &&& S_IFMT ≠ S_IFDIR) :
    foreachEntries fsOf f sub dir recurse (d_name :: rest) w =
      foreachEntries fsOf f sub dir recurse rest (f (dir ++ "/" ++ d_name) st_mode w) := by
  conv_lhs => unfold foreachEntries
  simp only [hst, if_neg hmode]

theorem foreachEntries_skip (sub : String → Int → σ → Option (Int × σ)) (dir : String)
    (recurse : Int) (d_name : String) (rest : List String) (w : σ) (st_mode : Nat)
    (hst : (fsOf w).stat (dir ++ "/" ++ d_name) = some st_mode)
    (hmode : st_mode &&& S_IFMT = S_IFDIR)
    (hskip : recurse = 0 ∨ d_name = "." ∨ d_name = "..") :
    foreachEntries fsOf f sub dir recurse (d_name :: rest) w =
      foreachEntries fsOf f sub dir recurse rest w := by
  conv_lhs => unfold foreachEntries
  simp only [hst, if_pos hmode]
  by_cases h0 : recurse = 0
  · rw [if_neg (by simpa using h0)]
  · have hd : ¬ (d_name ≠ "." ∧ d_name ≠ "..") := by
      rcases hskip with h | h | h
      · exact absurd h h0
      · simp [h]
      · simp [h]
    rw [if_pos h0, if_neg hd]

theorem foreachEntries_descend (sub : String → Int → σ → Option (Int × σ)) (dir : String)
    (recurse : Int) (d_name : String) (rest : List String) (w : σ) (st_mode : Nat)
    (hst : (fsOf w).stat (dir ++ "/" ++ d_name) = some st_mode)
    (hmode : st_mode &&& S_IFMT = S_IFDIR)
    (h0 : recurse ≠ 0) (h1 : d_name ≠ ".") (h2 : d_name ≠ "..") :
    foreachEntries fsOf f sub dir recurse (d_name :: rest) w =
      (sub (dir ++ "/" ++ d_name) (if recurse ≠ -1 then recurse - 1 else -1) w).bind
        (fun r => foreachEntries fsOf f sub dir recurse rest r.2) := by
  conv_lhs => unfold foreachEntries
  simp only [hst, if_pos hmode, if_pos h0, if_pos (And.intro h1 h2)]
  cases sub (dir ++ "/" ++ d_name) (if recurse ≠ -1 then recurse - 1 else -1) w with
  | none => rfl
  | some r => rfl

/-- The four ways one directory entry is handled. -/
theorem foreachEntries_cases (sub : String → Int → σ → Option (Int × σ)) (dir : String)
    (recurse : Int) (d_name : String) (rest : List String) (w : σ) :
    foreachEntries fsOf f sub dir recurse (d_name :: rest) w = some (-2, w) ∨
    (∃ m, foreachEntries fsOf f sub dir recurse (d_name :: rest) w =
      foreachEntries fsOf f sub dir recurse rest (f (dir ++ "/" ++ d_name) m w)) ∨
    foreachEntries fsOf f sub dir recurse (d_name :: rest) w =
      foreachEntries fsOf f sub dir recurse rest w ∨
    (recurse ≠ 0 ∧ foreachEntries fsOf f sub dir recurse (d_name :: rest) w =
      (sub (dir ++ "/" ++ d_name) (if recurse ≠ -1 then recurse - 1 else -1) w).bind
        (fun r => foreachEntries fsOf f sub dir recurse rest r.2)) := by
  cases hst : (fsOf w).stat (dir ++ "/" ++ d_name) with
  | none => exact Or.inl (foreachEntries_stat_fail fsOf f sub dir recurse d_name rest w hst)
  | some m =>
    by_cases hmode : m &&& S_IFMT = S_IFDIR
    · by_cases hskip : recurse = 0 ∨ d_name = "." ∨ d_name = ".."
      · exact Or.inr (Or.inr (Or.inl
          (foreachEntries_skip fsOf f sub dir recurse d_name rest w m hst hmode hskip)))
      · simp only [not_or] at hskip
        exact Or.inr (Or.inr (Or.inr ⟨hskip.1,
          foreachEntries_descend fsOf f sub dir recurse d_name rest w m hst hmode
            hskip.1 hskip.2.1 hskip.2.2⟩))
    · exact Or.inr (Or.inl ⟨m,
        foreachEntries_leaf fsOf f sub dir recurse d_name rest w m hst hmode⟩)

theorem foreachEntries_total (sub : String → Int → σ → Option (Int × σ)) (dir : String)
    (recurse : Int)
    (hsub : recurse ≠ 0 → ∀ p w, ∃ r, sub p (if recurse ≠ -1 then recurse - 1 else -1) w = some r) :
    ∀ names w, ∃ r, foreachEntries fsOf f sub dir recurse names w = some r := by
  intro names
  induction names with
  | nil => intro w; exact ⟨_, rfl⟩
  | cons d_name rest ih =>
    intro w
    rcases foreachEntries_cases fsOf f sub dir recurse d_name rest w with h | ⟨m, h⟩ | h | ⟨h0, h⟩
    · exact ⟨_, h⟩
    · rw [h]; exact ih _
    · rw [h]; exact ih _
    · obtain ⟨r, hr⟩ := hsub h0 (dir ++ "/" ++ d_name) w
      rw [h, hr]
      exact ih _

theorem foreach_bounded_total (b : Nat) :
    ∀ fuel dir w, b < fuel → ∃ r, foreach fsOf f fuel dir (b : Int) w = some r := by
  induction b with
  | zero =>
    intro fuel dir w h
    obtain ⟨k, rfl⟩ : ∃ k, fuel = k + 1 := ⟨fuel - 1, by omega⟩
    unfold foreach
    cases (fsOf w).opendir dir with
    | none => exact ⟨_, rfl⟩
    | some names =>
      exact foreachEntries_total fsOf f _ dir _ (fun h0 => absurd rfl h0) names w
  | succ b ih =>
    intro fuel dir w h
    obtain ⟨k, rfl⟩ : ∃ k, fuel = k + 1 := ⟨fuel - 1, by omega⟩
    unfold foreach
    cases (fsOf w).opendir dir with
    | none => exact ⟨_, rfl⟩
    | some names =>
      refine foreachEntries_total fsOf f _ dir _ (fun _ p w2 => ?_) names w
      have hb : (if ((b + 1 : Nat) : Int) ≠ -1 then ((b + 1 : Nat) : Int) - 1 else -1) = (b : Int) := by
        rw [if_pos (by omega)]
        omega
      rw [hb]
      exact ih k p w2 (by omega)

theorem foreachEntries_preserves (P : σ → Prop) (hf : ∀ p m s, P s → P (f p m s))
    (sub : String → Int → σ → Option (Int × σ)) (dir : String) (recurse : Int)
    (hsub : ∀ p r w res, sub p r w = some res → P w → P res.2) :
    ∀ names w res, foreachEntries fsOf f sub dir recurse names w = some res → P w → P res.2 := by
  intro names
  induction names with
  | nil =>
    intro w res h hw
    simp only [foreachEntries, Option.some.injEq] at h
    subst h
    exact hw
  | cons d_name rest ih =>
    intro w res h hw
    rcases foreachEntries_cases fsOf f sub dir recurse d_name rest w with h1 | ⟨m, h1⟩ | h1 | ⟨_, h1⟩
    · rw [h1] at h
      simp only [Option.some.injEq] at h
      subst h
      exact hw
    · rw [h1] at h
      exact ih _ _ h (hf _ _ _ hw)
    · rw [h1] at h
      exact ih _ _ h hw
    · rw [h1] at h
      cases hs : sub (dir ++ "/" ++ d_name) (if recurse ≠ -1 then recurse - 1 else -1) w with
      | none => rw [hs] at h; cases h
      | some r =>
        rw [hs] at h
        exact ih _ _ h (hsub _ _ _ _ hs hw)

theorem foreach_preserves (P : σ → Prop) (hf : ∀ p m s, P s → P (f p m s)) :
    ∀ fuel dir recurse w res, foreach fsOf f fuel dir recurse w = some res → P w → P res.2 := by
  intro fuel
  induction fuel with
  | zero => intro dir recurse w res h; simp [foreach] at h
  | succ k ih =>
    intro dir recurse w res h hw
    unfold foreach at h
    cases hop : (fsOf w).opendir dir with
    | none =>
      rw [hop] at h
      simp only [Option.some.injEq] at h
      subst h
      exact hw
    | some names =>
      rw [hop] at h
      exact foreachEntries_preserves fsOf f P hf _ dir recurse (fun p r w2 res2 => ih p r w2 res2)
        names w res h hw

end walk

section tree
variable {σ : Type} (fsOf : σ → FS) (f : String → Nat → σ → σ)

theorem reach_file (r : Int) (hr : r = -1 ∨ 0 ≤ r) (lvl : Nat) (x : String × Nat)
    (es : List (Nat × String × Nat)) :
    reach r lvl ((lvl, x) :: es) = x :: reach r lvl es := by
  unfold reach
  rw [List.filter_cons_of_pos]
  · rfl
  · simp only [decide_eq_true_eq]
    omega

theorem foreachEntries_tree (l : Listing) :
    ∀ (p : String) (lvl : Nat) (r : Int) (k : Nat) (s : σ),
      (∀ s, Shows (fsOf s) p l) → l.depth ≤ k → (r = -1 ∨ 0 ≤ r) →
      foreachEntries fsOf f (foreach fsOf f k) p r l.names s =
        some (0, visit f (reach r lvl (Listing.files p lvl l)) s) := by
  induction l with
  | nil => intro p lvl r k s _ _ _; rfl
  | file n m rest ih =>
    intro p lvl r k s hs hk hr
    obtain ⟨hst, hmode, _⟩ := hs s
    rw [Listing.names, foreachEntries_leaf fsOf f _ p r n _ s m hst hmode,
      ih p lvl r k _ (fun s2 => (hs s2).2.2) hk hr, Listing.files, reach_file r hr]
    rfl
  | dots n m rest ih =>
    intro p lvl r k s hs hk hr
    obtain ⟨hn, hst, hmode, _⟩ := hs s
    rw [Listing.names, foreachEntries_skip fsOf f _ p r n _ s m hst hmode (Or.inr hn),
      ih p lvl r k _ (fun s2 => (hs s2).2.2.2) hk hr, Listing.files]
  | dir n m sub rest ihs ihr =>
    intro p lvl r k s hs hk hr
    obtain ⟨hn1, hn2, hst, hmode, hop, _, _⟩ := hs s
    have hk2 : sub.depth + 1 ≤ k ∧ rest.depth ≤ k := by
      simp only [Listing.depth] at hk
      omega
    have hrest := fun s2 => ihr p lvl r k s2 (fun s3 => (hs s3).2.2.2.2.2.2) hk2.2 hr
    rw [Listing.names, Listing.files, reach_append]
    by_cases h0 : r = 0
    · rw [foreachEntries_skip fsOf f _ p r n _ s m hst hmode (Or.inl h0), hrest, h0,
        reach_zero_deeper, List.nil_append]
    · obtain ⟨k2, rfl⟩ : ∃ k2, k = k2 + 1 := ⟨k - 1, by omega⟩
      have hsub := ihs (p ++ "/" ++ n) (lvl + 1) (if r ≠ -1 then r - 1 else -1) k2 s
        (fun s3 => (hs s3).2.2.2.2.2.1) (by omega)
        (by by_cases h1 : r = -1
            · simp [h1]
            · rw [if_pos h1]; omega)
      rw [foreachEntries_descend fsOf f _ p r n _ s m hst hmode h0 hn1 hn2]
      conv_lhs => arg 1; unfold foreach
      simp only [hop, hsub, Option.some_bind, hrest, reach_descend r h0, visit_append]

theorem foreach_tree (root : String) (l : Listing) (h : ∀ s, IsTree (fsOf s) root l)
    (r : Int) (hr : r = -1 ∨ 0 ≤ r) (fuel : Nat) (hfuel : l.depth < fuel) (s : σ) :
    foreach fsOf f fuel root r s = some (0, visit f (reach r 0 (Listing.files root 0 l)) s) := by
  obtain ⟨k, rfl⟩ : ∃ k, fuel = k + 1 := ⟨fuel - 1, by omega⟩
  unfold foreach
  simp only [(h s).1]
  exact foreachEntries_tree fsOf f l root 0 r k s (fun s2 => (h s2).2) (by omega) hr

theorem reach_unbounded (es : List (Nat × String × Nat)) : reach (-1) 0 es = es.map Prod.snd := by
  unfold reach
  rw [List.filter_eq_self.mpr]
  intro e _
  simp

theorem reach_bounded (b : Nat) (es : List (Nat × String × Nat)) :
    reach (b : Int) 0 es = (es.filter (fun e => e.1 ≤ b)).map Prod.snd := by
  unfold reach
  congr 1
  apply List.filter_congr
  intro e _
  have h1 : ¬ ((b : Int) = -1) := by omega
  simp only [h1, false_or]
  congr 1
  apply propext
  constructor <;> intro h2 <;> push_cast at h2 ⊢ <;> omega

end tree

/-! ## Walks over an unchanging file system -/

section walk2
variable {σ : Type} (fsOf : σ → FS) (f : String → Nat → σ → σ)

theorem foreachEntries_mono (sub1 sub2 : String → Int → σ → Option (Int × σ)) (dir : String)
    (recurse : Int)
    (hsub : ∀ p r w res, sub1 p r w = some res → sub2 p r w = some res) :
    ∀ names w res, foreachEntries fsOf f sub1 dir recurse names w = some res →
      foreachEntries fsOf f sub2 dir recurse names w = some res := by
  intro names
  induction names with
  | nil => intro w res h; exact h
  | cons d_name rest ih =>
    intro w res h
    cases hst : (fsOf w).stat (dir ++ "/" ++ d_name) with
    | none =>
      rw [foreachEntries_stat_fail fsOf f _ dir recurse d_name rest w hst] at h ⊢
      exact h
    | some m =>
      by_cases hmode : m &&& S_IFMT = S_IFDIR
      · by_cases hskip : recurse = 0 ∨ d_name = "." ∨ d_name = ".."
        · rw [foreachEntries_skip fsOf f _ dir recurse d_name rest w m hst hmode hskip] at h ⊢
          exact ih _ _ h
        · simp only [not_or] at hskip
          rw [foreachEntries_descend fsOf f _ dir recurse d_name rest w m hst hmode
            hskip.1 hskip.2.1 hskip.2.2] at h ⊢
          cases hs : sub1 (dir ++ "/" ++ d_name) (if recurse ≠ -1 then recurse - 1 else -1) w with
          | none => rw [hs] at h; cases h
          | some r =>
            rw [hs] at h
            rw [hsub _ _ _ _ hs]
            exact ih _ _ h
      · rw [foreachEntries_leaf fsOf f _ dir recurse d_name rest w m hst hmode] at h ⊢
        exact ih _ _ h

theorem foreach_mono_succ :
    ∀ fuel dir recurse w res, foreach fsOf f fuel dir recurse w = some res →
      foreach fsOf f (fuel + 1) dir recurse w = some res := by
  intro fuel
  induction fuel with
  | zero => intro dir recurse w res h; simp [foreach] at h
  | succ k ih =>
    intro dir recurse w res h
    unfold foreach at h ⊢
    cases hop : (fsOf w).opendir dir with
    | none => rw [hop] at h; exact h
    | some names =>
      rw [hop] at h
      exact foreachEntries_mono fsOf f _ _ dir recurse ih names w res h

theorem foreach_mono (fuel1 fuel2 : Nat) (hle : fuel1 ≤ fuel2) (dir : String) (recurse : Int)
    (w : σ) (res : Int × σ) (h : foreach fsOf f fuel1 dir recurse w = some res) :
    foreach fsOf f fuel2 dir recurse w = some res := by
  induction hle with
  | refl => exact h
  | step _ ih => exact foreach_mono_succ fsOf f _ dir recurse w res ih

theorem foreachEntries_const (fs : FS) (hfs : ∀ s, fsOf s = fs) (s : σ)
    (subF : String → Int → σ → Option (Int × σ))
    (subR : String → Int → List (String × Nat) → Option (Int × List (String × Nat)))
    (dir : String) (recurse : Int)
    (hsub : ∀ p r acc, subF p r (visit f acc s) =
      (subR p r acc).map (fun res => (res.1, visit f res.2 s))) :
    ∀ names acc, foreachEntries fsOf f subF dir recurse names (visit f acc s) =
      (foreachEntries (fun _ => fs) recordLeaf subR dir recurse names acc).map
        (fun res => (res.1, visit f res.2 s)) := by
  intro names
  induction names with
  | nil => intro acc; rfl
  | cons d_name rest ih =>
    intro acc
    cases hst : fs.stat (dir ++ "/" ++ d_name) with
    | none =>
      rw [foreachEntries_stat_fail fsOf f _ dir recurse d_name rest _ (by rw [hfs]; exact hst),
        foreachEntries_stat_fail (fun _ => fs) recordLeaf _ dir recurse d_name rest acc hst]
      rfl
    | some m =>
      have hstF : (fsOf (visit f acc s)).stat (dir ++ "/" ++ d_name) = some m := by
        rw [hfs]; exact hst
      by_cases hmode : m &&& S_IFMT = S_IFDIR
      · by_cases hskip : recurse = 0 ∨ d_name = "." ∨ d_name = ".."
        · rw [foreachEntries_skip fsOf f _ dir recurse d_name rest _ m hstF hmode hskip,
            foreachEntries_skip (fun _ => fs) recordLeaf _ dir recurse d_name rest acc m hst
              hmode hskip]
          exact ih acc
        · simp only [not_or] at hskip
          rw [foreachEntries_descend fsOf f _ dir recurse d_name rest _ m hstF hmode
              hskip.1 hskip.2.1 hskip.2.2,
            foreachEntries_descend (fun _ => fs) recordLeaf _ dir recurse d_name rest acc m hst
              hmode hskip.1 hskip.2.1 hskip.2.2, hsub]
          cases subR (dir ++ "/" ++ d_name) (if recurse ≠ -1 then recurse - 1 else -1) acc with
          | none => rfl
          | some r => exact ih r.2
      · rw [foreachEntries_leaf fsOf f _ dir recurse d_name rest _ m hstF hmode,
          foreachEntries_leaf (fun _ => fs) recordLeaf _ dir recurse d_name rest acc m hst hmode]
        have := ih (recordLeaf (dir ++ "/" ++ d_name) m acc)
        rw [recordLeaf, visit_append] at this
        exact this

theorem foreach_const (fs : FS) (hfs : ∀ s, fsOf s = fs) (s : σ) :
    ∀ fuel dir recurse acc, foreach fsOf f fuel dir recurse (visit f acc s) =
      (foreach (fun _ => fs) recordLeaf fuel dir recurse acc).map
        (fun res => (res.1, visit f res.2 s)) := by
  intro fuel
  induction fuel with
  | zero => intro dir recurse acc; rfl
  | succ k ih =>
    intro dir recurse acc
    unfold foreach
    rw [hfs]
    cases fs.opendir dir with
    | none => rfl
    | some names =>
      exact foreachEntries_const fsOf f fs hfs s _ _ dir recurse (fun p r a => ih p r a) names acc

end walk2

theorem walkDev_const (env : Env) (fs : FS) (hfs : ∀ w, env.fs w = fs) (fuel : Nat)
    (hfuel : 2 ≤ fuel) (f : String → Nat → World → World) (w : World) :
    walkDev env fuel f w = some (visit f (devLeaves fs) w) := by
  obtain ⟨res, hres⟩ := foreach_bounded_total (fun _ : List (String × Nat) => fs) recordLeaf 1
    2 "/dev" [] (by decide)
  have h2 := foreach_mono (fun _ : List (String × Nat) => fs) recordLeaf 2 fuel hfuel "/dev" 1 []
    res hres
  have h := foreach_const env.fs f fs hfs w fuel "/dev" 1 []
  simp only [visit] at h
  unfold walkDev devLeaves
  rw [h, h2]
  have hres2 : foreach (fun _ : List (String × Nat) => fs) recordLeaf 2 "/dev" 1 [] = some res :=
    hres
  rw [hres2]
  rfl

theorem visit_system (cmd : String → String) (f : String → Nat → World → World)
    (hf : ∀ v m w, f v m w = w ++ [Event.system (cmd v)]) (L : List (String × Nat)) :
    ∀ w, visit f L w = w ++ L.map (fun x => Event.system (cmd x.1)) := by
  induction L with
  | nil => intro w; simp [visit]
  | cons x L ih =>
    intro w
    rw [visit, ih, hf]
    simp

theorem write_erase_notice_events (env : Env) (v : String) (m : Nat) (w : World) :
    ∃ es : List Event, write_erase_notice env v m w = w ++ es ∧ ∀ e ∈ es, e.isNotice = true := by
  unfold write_erase_notice write_message_to_block_device
  by_cases h1 : S_ISBLK m = true
  · by_cases h2 : env.fopen w v = true
    · refine ⟨[Event.fopen v true, Event.printf ("write_erase_notice: " ++ v ++ "\n"),
        Event.fwrite v (messageBytes eraseNotice), Event.fclose v],
        by simp only [h1, h2, Bool.not_true, Bool.false_eq_true, if_false, if_true], ?_⟩
      intro e he
      simp only [List.mem_cons, List.mem_singleton, List.not_mem_nil, or_false] at he
      rcases he with he | he | he | he <;> rw [he] <;> rfl
    · refine ⟨[Event.fopen v false], by simp [h1, h2], ?_⟩
      intro e he
      simp only [List.mem_singleton] at he
      rw [he]; rfl
  · exact ⟨[], by simp [h1], by simp⟩

theorem visit_notice_events (env : Env) (L : List (String × Nat)) :
    ∀ w, ∃ es : List Event, visit (write_erase_notice env) L w = w ++ es ∧
      ∀ e ∈ es, e.isNotice = true := by
  induction L with
  | nil => intro w; exact ⟨[], by simp [visit], by simp⟩
  | cons x L ih =>
    intro w
    obtain ⟨es1, h1, h1n⟩ := write_erase_notice_events env x.1 x.2 w
    obtain ⟨es2, h2, h2n⟩ := ih (w ++ es1)
    refine ⟨es1 ++ es2, by rw [visit, h1, h2, List.append_assoc], ?_⟩
    intro e he
    rcases List.mem_append.mp he with h | h
    · exact h1n e h
    · exact h2n e h

theorem eraseDiscard_const (env : Env) (fs : FS) (hfs : ∀ w, env.fs w = fs) (fuel : Nat)
    (hfuel : 2 ≤ fuel) (do_trim do_notify : Bool) (w : World) :
    eraseDiscard env fuel do_trim do_notify w =
      some (discardSequence env (devLeaves fs) do_trim do_notify w) := by
  unfold eraseDiscard discardSequence
  simp only [walkDev_const env fs hfs fuel hfuel, Option.bind_eq_bind, Option.some_bind]
  cases do_trim <;> cases do_notify <;> rfl

theorem count_sync_of_notice (es : List Event) (h : ∀ e ∈ es, e.isNotice = true) :
    es.count Event.sync = 0 := by
  rw [List.count_eq_zero]
  intro hmem
  have := h _ hmem
  simp [Event.isNotice] at this

theorem discardSequence_sync_count (env : Env) (L : List (String × Nat))
    (do_trim do_notify : Bool) (w : World) :
    (discardSequence env L do_trim do_notify w).count Event.sync = w.count Event.sync + 2 := by
  obtain ⟨es, hes, hn⟩ := visit_notice_events env L
    (if do_trim then visit blkdiscard_insecure L (visit blkdiscard_secure L
      (sync (visit erase_luks L w))) else sync (visit erase_luks L w))
  have hc := count_sync_of_notice es hn
  unfold discardSequence
  simp only
  cases do_notify
  · cases do_trim
    · simp [sync, visit_system construct_erase_luks erase_luks (fun _ _ _ => rfl),
        List.count_append, List.count_eq_zero.mpr]
    · simp [sync, visit_system construct_erase_luks erase_luks (fun _ _ _ => rfl),
        visit_system construct_blkdiscard_secure blkdiscard_secure (fun _ _ _ => rfl),
        visit_system construct_blkdiscard_insecure blkdiscard_insecure (fun _ _ _ => rfl),
        List.count_append, List.count_eq_zero.mpr]
  · simp only [if_true]
    rw [hes]
    cases do_trim
    · simp [sync, visit_system construct_erase_luks erase_luks (fun _ _ _ => rfl),
        List.count_append, List.count_eq_zero.mpr, hc]
    · simp [sync, visit_system construct_erase_luks erase_luks (fun _ _ _ => rfl),
        visit_system construct_blkdiscard_secure blkdiscard_secure (fun _ _ _ => rfl),
        visit_system construct_blkdiscard_insecure blkdiscard_insecure (fun _ _ _ => rfl),
        List.count_append, List.count_eq_zero.mpr, hc]

/-! ## Totality of the stages -/

theorem noPower_append (w es : World) (hw : noPower w) (hes : ∀ e ∈ es, e.isPower = false) :
    noPower (w ++ es) := by
  intro e he
  rcases List.mem_append.mp he with h | h
  · exact hw e h
  · exact hes e h

theorem noPower_system (cmd : String) (w : World) (hw : noPower w) : noPower (system cmd w) :=
  noPower_append w _ hw (by simp [Event.isPower])

theorem noPower_sync (w : World) (hw : noPower w) : noPower (sync w) :=
  noPower_append w _ hw (by simp [Event.isPower])

theorem noPower_notice (env : Env) (v : String) (m : Nat) (w : World) (hw : noPower w) :
    noPower (write_erase_notice env v m w) := by
  unfold write_erase_notice write_message_to_block_device
  split_ifs
  · exact hw
  · exact noPower_append w _ hw (by simp [Event.isPower])
  · exact noPower_append w _ hw (by simp [Event.isPower])

theorem walkDev_total (env : Env) (fuel : Nat) (hfuel : 2 ≤ fuel)
    (f : String → Nat → World → World) (hf : ∀ p m w, noPower w → noPower (f p m w))
    (w : World) (hw : noPower w) :
    ∃ w1, walkDev env fuel f w = some w1 ∧ noPower w1 := by
  obtain ⟨res, hres⟩ := foreach_bounded_total env.fs f 1 fuel "/dev" w (by omega)
  have hres2 : foreach env.fs f fuel "/dev" 1 w = some res := hres
  refine ⟨res.2, by rw [walkDev, hres2]; rfl, ?_⟩
  exact foreach_preserves env.fs f noPower hf fuel "/dev" 1 w res hres2 hw

theorem eraseDiscard_total (env : Env) (fuel : Nat) (hfuel : 2 ≤ fuel) (do_trim do_notify : Bool)
    (w : World) (hw : noPower w) :
    ∃ w1, eraseDiscard env fuel do_trim do_notify w = some w1 ∧ noPower w1 := by
  obtain ⟨w1, h1, p1⟩ := walkDev_total env fuel hfuel erase_luks
    (fun _ _ _ h => noPower_system _ _ h) w hw
  have p2 := noPower_sync w1 p1
  obtain ⟨w3, h3, p3⟩ : ∃ w3, (if do_trim then
      (walkDev env fuel blkdiscard_secure (sync w1)).bind (walkDev env fuel blkdiscard_insecure)
      else some (sync w1)) = some w3 ∧ noPower w3 := by
    cases do_trim
    · exact ⟨_, rfl, p2⟩
    · obtain ⟨wa, ha, pa⟩ := walkDev_total env fuel hfuel blkdiscard_secure
        (fun _ _ _ h => noPower_system _ _ h) _ p2
      obtain ⟨wb, hb, pb⟩ := walkDev_total env fuel hfuel blkdiscard_insecure
        (fun _ _ _ h => noPower_system _ _ h) _ pa
      exact ⟨wb, by simp only [if_true, ha, Option.some_bind, hb], pb⟩
  obtain ⟨w4, h4, p4⟩ : ∃ w4, (if do_notify then walkDev env fuel (write_erase_notice env) w3
      else some w3) = some w4 ∧ noPower w4 := by
    cases do_notify
    · exact ⟨_, rfl, p3⟩
    · obtain ⟨wa, ha, pa⟩ := walkDev_total env fuel hfuel (write_erase_notice env)
        (fun _ _ _ h => noPower_notice env _ _ _ h) _ p3
      exact ⟨wa, by simp only [if_true, ha], pa⟩
  refine ⟨sync w4, ?_, noPower_sync w4 p4⟩
  unfold eraseDiscard
  simp only [Option.bind_eq_bind, h1, Option.some_bind, h3, h4]

theorem eraseStage_total (env : Env) (fuel : Nat) (hfuel : 2 ≤ fuel) (c : Config)
    (w : World) (hw : noPower w) :
    ∃ w1, eraseStage env fuel c w = some w1 ∧ noPower w1 := by
  unfold eraseStage
  cases c.erase_mode with
  | DISCARD => exact eraseDiscard_total env fuel hfuel _ _ w hw
  | OPAL =>
    obtain ⟨w1, h1, p1⟩ := walkDev_total env fuel hfuel erase_opal
      (fun _ _ _ h => noPower_system _ _ h) w hw
    obtain ⟨w2, h2, p2⟩ := eraseDiscard_total env fuel hfuel c.do_trim c.do_notify w1 p1
    exact ⟨w2, by simp only [h1, Option.some_bind, h2], p2⟩
  | NONE =>
    exact ⟨_, rfl, noPower_sync _ (noPower_append w _ hw (by simp [Event.isPower]))⟩

theorem sleepLoop_zero (env : Env) (fuel : Nat) (w : World) :
    sleepLoop env fuel 0 w = some w := by
  cases fuel <;> rfl

theorem sleepCall_le (env : Env) (w : World) (n : Nat) : sleepCall env w n ≤ n :=
  Nat.min_le_right _ _

theorem sleepLoop_result (env : Env) :
    ∀ fuel d w res, sleepLoop env fuel d w = some res →
      ∃ sleeps : List (Nat × Nat), res = w ++ sleepEvents sleeps ∧
        (∀ q ∈ sleeps, q.2 ≤ q.1) ∧ sleptSeconds sleeps = d := by
  intro fuel
  induction fuel with
  | zero =>
    intro d w res h
    cases d with
    | zero =>
      rw [sleepLoop_zero] at h
      simp only [Option.some.injEq] at h
      exact ⟨[], by simp [sleepEvents, h], by simp, rfl⟩
    | succ d => simp [sleepLoop] at h
  | succ k ih =>
    intro d w res h
    cases d with
    | zero =>
      rw [sleepLoop_zero] at h
      simp only [Option.some.injEq] at h
      exact ⟨[], by simp [sleepEvents, h], by simp, rfl⟩
    | succ d =>
      rw [sleepLoop] at h
      obtain ⟨sleeps, h1, h2, h3⟩ := ih _ _ _ h
      have hle := sleepCall_le env w (d + 1)
      refine ⟨(d + 1, sleepCall env w (d + 1)) :: sleeps, ?_, ?_, ?_⟩
      · rw [h1]
        simp [sleepEvents]
      · intro q hq
        rcases List.mem_cons.mp hq with hq1 | hq1
        · rw [hq1]; exact hle
        · exact h2 q hq1
      · simp only [sleptSeconds, List.map_cons, List.sum_cons] at h3 ⊢
        omega

theorem sleepCalls_snoc (w : World) (q r : Nat) :
    sleepCalls (w ++ [Event.sleep q r]) = sleepCalls w + 1 := by
  simp [sleepCalls, List.countP_append, Event.isSleep]

theorem sleepLoop_ends (env : Env) (k : Nat)
    (hk : ∀ w n, k ≤ sleepCalls w → env.sleep w n = 0) :
    ∀ fuel d w, k + 1 ≤ fuel + sleepCalls w → 1 ≤ fuel →
      ∃ res, sleepLoop env fuel d w = some res := by
  intro fuel
  induction fuel with
  | zero => intro d w _ h1; omega
  | succ j ih =>
    intro d w hsum _
    cases d with
    | zero => exact ⟨w, sleepLoop_zero env _ w⟩
    | succ d =>
      rw [sleepLoop]
      by_cases hsc : k ≤ sleepCalls w
      · have h0 : sleepCall env w (d + 1) = 0 := by
          unfold sleepCall
          rw [hk w (d + 1) hsc]
          exact Nat.zero_min _
        rw [h0]
        exact ⟨_, sleepLoop_zero env _ _⟩
      · exact ih _ _ (by rw [sleepCalls_snoc]; omega) (by omega)

theorem shutdownStage_cases (env : Env) (fuel : Nat) (c : Config) (w : World) :
    (c.shutdown_type = SHUTDOWN_TYPE.DELAY_POWEROFF ∧ shutdownStage env fuel c w = none) ∨
    ∃ sleeps : List (Nat × Nat),
      shutdownStage env fuel c w = some (w ++ shutdownEvents c sleeps) ∧
      (∀ q ∈ sleeps, q.2 ≤ q.1) ∧
      (c.shutdown_type = SHUTDOWN_TYPE.DELAY_POWEROFF →
        sleptSeconds sleeps = c.shutdown_delay) ∧
      (c.shutdown_type ≠ SHUTDOWN_TYPE.DELAY_POWEROFF → sleeps = []) := by
  unfold shutdownStage shutdownEvents
  cases hty : c.shutdown_type with
  | POWEROFF => exact Or.inr ⟨[], rfl, by simp, by simp, by simp⟩
  | REBOOT => exact Or.inr ⟨[], rfl, by simp, by simp, by simp⟩
  | NONE => exact Or.inr ⟨[], by simp, by simp, by simp, by simp⟩
  | DELAY_POWEROFF =>
    cases hl : sleepLoop env fuel c.shutdown_delay
      (w ++ [Event.printf ("Waiting " ++ toString (toSigned c.shutdown_delay) ++
        " seconds before poweroff...\n")]) with
    | none => exact Or.inl ⟨rfl, by simp⟩
    | some res =>
      obtain ⟨sleeps, h1, h2, h3⟩ := sleepLoop_result env _ _ _ _ hl
      refine Or.inr ⟨sleeps, ?_, h2, fun _ => h3, fun h => absurd rfl h⟩
      simp only [Option.map_some', h1, List.append_assoc]

theorem shutdownStage_ends (env : Env) (fuel : Nat) (c : Config) (w : World) (k : Nat)
    (hk : ∀ w n, k ≤ sleepCalls w → env.sleep w n = 0) (hfuel : k < fuel) :
    shutdownStage env fuel c w ≠ none := by
  unfold shutdownStage
  cases c.shutdown_type with
  | POWEROFF => simp
  | REBOOT => simp
  | NONE => simp
  | DELAY_POWEROFF =>
    obtain ⟨res, hres⟩ := sleepLoop_ends env k hk fuel c.shutdown_delay
      (w ++ [Event.printf ("Waiting " ++ toString (toSigned c.shutdown_delay) ++
        " seconds before poweroff...\n")]) (by omega) (by omega)
    simp [hres]

theorem foreachEntries_damaged {σ : Type} (fsOf : σ → FS) (f : String → Nat → σ → σ)
    (l : Damaged) :
    ∀ (p : String) (r : Int) (k : Nat) (s : σ),
      (∀ s, ShowsDamaged (fsOf s) p l) → l.depth ≤ k →
      ∃ s1, foreachEntries fsOf f (foreach fsOf f k) p r l.names s =
        some (if l.fails then -2 else 0, s1) := by
  induction l with
  | nil => intro p r k s _ _; exact ⟨s, rfl⟩
  | file n m rest ih =>
    intro p r k s hs hk
    obtain ⟨hst, hmode, _⟩ := hs s
    rw [Damaged.names, foreachEntries_leaf fsOf f _ p r n _ s m hst hmode]
    exact ih p r k _ (fun s2 => (hs s2).2.2) hk
  | dots n m rest ih =>
    intro p r k s hs hk
    obtain ⟨hn, hst, hmode, _⟩ := hs s
    rw [Damaged.names, foreachEntries_skip fsOf f _ p r n _ s m hst hmode (Or.inr hn)]
    exact ih p r k _ (fun s2 => (hs s2).2.2.2) hk
  | dir n m sub rest ihs ihr =>
    intro p r k s hs hk
    obtain ⟨hn1, hn2, hst, hmode, hop, _, _⟩ := hs s
    have hk2 : sub.depth + 1 ≤ k ∧ rest.depth ≤ k := by
      simp only [Damaged.depth] at hk
      omega
    have hrest := fun s2 => ihr p r k s2 (fun s3 => (hs s3).2.2.2.2.2.2) hk2.2
    rw [Damaged.names]
    by_cases h0 : r = 0
    · rw [foreachEntries_skip fsOf f _ p r n _ s m hst hmode (Or.inl h0)]
      exact hrest s
    · obtain ⟨k2, rfl⟩ : ∃ k2, k = k2 + 1 := ⟨k - 1, by omega⟩
      obtain ⟨s2, hsub⟩ := ihs (p ++ "/" ++ n) (if r ≠ -1 then r - 1 else -1) k2 s
        (fun s3 => (hs s3).2.2.2.2.2.1) (by omega)
      have hnested : foreach fsOf f (k2 + 1) (p ++ "/" ++ n) (if r ≠ -1 then r - 1 else -1) s =
          some (if sub.fails then -2 else 0, s2) := by
        unfold foreach
        simp only [hop]
        exact hsub
      rw [foreachEntries_descend fsOf f _ p r n _ s m hst hmode h0 hn1 hn2, hnested]
      exact hrest s2
  | unreadable n rest _ =>
    intro p r k s hs _
    rw [Damaged.names, foreachEntries_stat_fail fsOf f _ p r n _ s (hs s).1]
    exact ⟨s, rfl⟩

theorem fsBroken_isTree : IsDamagedTree fsBroken "/dev" treeBroken := by
  refine ⟨by decide, ?_⟩
  simp only [treeBroken, treeMapperBroken, ShowsDamaged]
  decide

theorem fsBroken_mapper_isTree : IsDamagedTree fsBroken "/dev/mapper" treeMapperBroken := by
  refine ⟨by decide, ?_⟩
  simp only [treeMapperBroken, ShowsDamaged]
  decide

theorem atoi_saturates :
    toUnsigned (atoi "9223372036854775808") = 4294967295 ∧
    toUnsigned (atoi "-99999999999999999999") = 0 ∧
    toUnsigned (atoi "4294967301") = 5 ∧
    toUnsigned (atoi "-1") = 4294967295 := by
  decide

theorem fsCyclic_isTree : IsTree fsCyclic "/dev" treeCyclic := by
  refine ⟨by decide, ?_⟩
  simp only [treeCyclic, Shows]
  decide

theorem discardSequence_events (env : Env) (L : List (String × Nat))
    (do_trim do_notify : Bool) (w : World) :
    ∃ notices : List Event, (∀ e ∈ notices, e.isNotice = true) ∧
      (do_notify = false → notices = []) ∧
      discardSequence env L do_trim do_notify w = w ++ discardEvents L do_trim notices := by
  have hl := visit_system construct_erase_luks erase_luks (fun _ _ _ => rfl) L
  have hs := visit_system construct_blkdiscard_secure blkdiscard_secure (fun _ _ _ => rfl) L
  have hi := visit_system construct_blkdiscard_insecure blkdiscard_insecure (fun _ _ _ => rfl) L
  cases do_notify
  · refine ⟨[], by simp, fun _ => rfl, ?_⟩
    cases do_trim <;> simp [discardSequence, discardEvents, hl, hs, hi, sync]
  · obtain ⟨es, hes, hn⟩ := visit_notice_events env L
      (if do_trim then visit blkdiscard_insecure L (visit blkdiscard_secure L
        (sync (visit erase_luks L w))) else sync (visit erase_luks L w))
    refine ⟨es, hn, by simp, ?_⟩
    unfold discardSequence
    simp only [if_true]
    rw [hes]
    cases do_trim <;> simp [discardEvents, hl, hs, hi, sync]

/-! ## Claims -/

/-- Claim C1: when every walk of `/dev` sees the same file system `fs`, whose
depth-1 walk visits the leaf list `L = devLeaves fs`, the erase stage in
Discard mode is exactly the sequence: `erase_luks` on each element of `L`,
`sync`, then (only if `do_trim`) `blkdiscard_secure` on each element of `L`
followed by `blkdiscard_insecure` on each element of `L`, then (only if
`do_notify`) `write_erase_notice` on each element of `L`, then `sync`.  In
Opal mode the same sequence is preceded by `erase_opal` on each element of
`L`.  As events: the crypto-erase commands, one barrier, the secure discards
before the plain discards, the notice events, one barrier; exactly two
barriers are added in either mode. -/
theorem c1_erase_sequence (env : Env) (fs : FS) (hfs : ∀ w, env.fs w = fs) (fuel : Nat)
    (hfuel : 2 ≤ fuel) (c : Config) (w : World) :
    (c.erase_mode = ERASE_MODE.DISCARD →
      eraseStage env fuel c w =
        some (discardSequence env (devLeaves fs) c.do_trim c.do_notify w)) ∧
    (c.erase_mode = ERASE_MODE.OPAL →
      eraseStage env fuel c w =
        some (discardSequence env (devLeaves fs) c.do_trim c.do_notify
          (visit erase_opal (devLeaves fs) w))) ∧
    (∀ w0, ∃ notices : List Event, (∀ e ∈ notices, e.isNotice = true) ∧
      (c.do_notify = false → notices = []) ∧
      discardSequence env (devLeaves fs) c.do_trim c.do_notify w0 =
        w0 ++ discardEvents (devLeaves fs) c.do_trim notices) ∧
    (∀ w0, (discardSequence env (devLeaves fs) c.do_trim c.do_notify w0).count Event.sync =
      w0.count Event.sync + 2) ∧
    (∀ w0, (visit erase_opal (devLeaves fs) w0).count Event.sync = w0.count Event.sync) := by
  refine ⟨?_, ?_, fun w0 => discardSequence_events env _ _ _ w0,
    fun w0 => discardSequence_sync_count env _ _ _ w0, ?_⟩
  · intro h
    rw [eraseStage, h]
    exact eraseDiscard_const env fs hfs fuel hfuel _ _ w
  · intro h
    rw [eraseStage, h]
    simp only [walkDev_const env fs hfs fuel hfuel, Option.some_bind]
    exact eraseDiscard_const env fs hfs fuel hfuel _ _ _
  · intro w0
    rw [visit_system construct_erase_luks erase_opal (fun _ _ _ => rfl)]
    simp [List.count_append, List.count_eq_zero.mpr]

/-- Witness of C1: `/dev` holds the one block device `/dev/x0`, with
`do_trim = do_notify = true`. -/
theorem c1_erase_sequence_witness :
    devLeaves fsOne = [("/dev/x0", S_IFBLK)] ∧
    eraseStage envOne 2 Config.initial [] = some
      [Event.system "cryptsetup erase -q /dev/x0", Event.sync,
       Event.system "blkdiscard -sfv /dev/x0", Event.system "blkdiscard -fv /dev/x0",
       Event.fopen "/dev/x0" true, Event.printf "write_erase_notice: /dev/x0\n",
       Event.fwrite "/dev/x0" (messageBytes eraseNotice), Event.fclose "/dev/x0",
       Event.sync] :=
  ⟨by decide,
   (c1_erase_sequence envOne fsOne (fun _ => rfl) 2 (by decide) Config.initial []).1 rfl⟩

/-- Claim C2, evaluated on the code: `erase_opal` runs the header-erase command
`cryptsetup erase -q p` built by `construct_erase_luks`, for every path, and
not the command `cryptsetup erase --hw-opal-factory-reset p` built by
`construct_erase_opal`, which differs from it at `/dev/x0`. -/
theorem c2_erase_opal_runs_luks_command :
    (∀ (v : String) (mode : Nat) (w : World),
      erase_opal v mode w = w ++ [Event.system (construct_erase_luks v)]) ∧
    erase_opal "/dev/x0" S_IFBLK [] = [Event.system "cryptsetup erase -q /dev/x0"] ∧
    construct_erase_opal "/dev/x0" = "cryptsetup erase --hw-opal-factory-reset /dev/x0" ∧
    erase_opal "/dev/x0" S_IFBLK [] ≠ [Event.system (construct_erase_opal "/dev/x0")] :=
  ⟨fun _ _ _ => rfl, by decide, by decide, by decide⟩

/-- Claim C3: on a finite tree whose directories also list `.` and `..`, with
all metadata readable, `foreach` returns 0 as soon as the bound on nested
calls exceeds the depth of the tree, and it has called `f` exactly on the
non-directory entries at most `b` directory levels below the root, each once
and in walk order (budget `b ≥ 0`), or on every non-directory entry (budget
`-1`); never on a directory, and never through `.` or `..`. -/
theorem c3_foreach_visits_leaves {σ : Type} (fsOf : σ → FS) (f : String → Nat → σ → σ)
    (root : String) (l : Listing)
    (h : ∀ s, IsTree (fsOf s) root l) (fuel : Nat) (hfuel : l.depth < fuel) (s : σ) :
    (∀ b : Nat, foreach fsOf f fuel root (b : Int) s =
      some (0, visit f (l.leavesWithin root b) s)) ∧
    foreach fsOf f fuel root (-1) s = some (0, visit f (l.allLeaves root) s) := by
  constructor
  · intro b
    rw [foreach_tree fsOf f root l h b (Or.inr (by omega)) fuel hfuel s, reach_bounded]
    rfl
  · rw [foreach_tree fsOf f root l h (-1) (Or.inl rfl) fuel hfuel s, reach_unbounded]
    rfl

/-- Witness of C3: a file system in which `.` and `..` open again without end;
budgets 1, 0 and -1. -/
theorem c3_foreach_visits_leaves_witness :
    foreach (fun _ => fsCyclic) recordLeaf 2 "/dev" 1 [] =
      some (0, [("/dev/x0", S_IFBLK), ("/dev/mapper/y0", S_IFBLK)]) ∧
    foreach (fun _ => fsCyclic) recordLeaf 2 "/dev" 0 [] = some (0, [("/dev/x0", S_IFBLK)]) ∧
    foreach (fun _ => fsCyclic) recordLeaf 2 "/dev" (-1) [] =
      some (0, [("/dev/x0", S_IFBLK), ("/dev/mapper/y0", S_IFBLK)]) :=
  ⟨(c3_foreach_visits_leaves (fun _ => fsCyclic) recordLeaf "/dev" treeCyclic
      (fun _ => fsCyclic_isTree) 2 (by decide) []).1 1,
   (c3_foreach_visits_leaves (fun _ => fsCyclic) recordLeaf "/dev" treeCyclic
      (fun _ => fsCyclic_isTree) 2 (by decide) []).1 0,
   (c3_foreach_visits_leaves (fun _ => fsCyclic) recordLeaf "/dev" treeCyclic
      (fun _ => fsCyclic_isTree) 2 (by decide) []).2⟩

/-- Claim C4: run as root on an accepted argument list, whatever the
environment answers during the erase stage (an unopenable `/dev`, unreadable
metadata, failing commands), the erase stage returns without a power
transition and `main` goes on to the shutdown stage.  Every run either is
still inside the delay loop when the bound on `sleep` calls is reached, or
returns 0 with the erase trace followed by the shutdown events of the
configuration alone: one power-off; or the delay message, the `sleep` calls
and then one power-off, the seconds slept summing to the delay; or one
restart; or nothing.  When the environment interrupts at most `k` `sleep`
calls, a bound above `k` always gives that result. -/
theorem c4_shutdown_always_reached (env : Env) (fuel : Nat) (argv : List String) (c : Config)
    (hroot : env.geteuid = 0)
    (hparse : parseLoop (argv.drop 1) Config.initial = ParseResult.ok c)
    (hwalk : 2 ≤ fuel) :
    ∃ w1 : World,
      eraseStage env fuel c (lock_screen []) = some w1 ∧
      (∀ e ∈ w1, e.isPower = false) ∧
      ((c.shutdown_type = SHUTDOWN_TYPE.DELAY_POWEROFF ∧
          main env fuel argv = Outcome.unfinished) ∨
        ∃ sleeps : List (Nat × Nat),
          main env fuel argv = Outcome.returned 0 (w1 ++ shutdownEvents c sleeps) ∧
          (∀ q ∈ sleeps, q.2 ≤ q.1) ∧
          (c.shutdown_type = SHUTDOWN_TYPE.DELAY_POWEROFF →
            sleptSeconds sleeps = c.shutdown_delay) ∧
          (c.shutdown_type ≠ SHUTDOWN_TYPE.DELAY_POWEROFF → sleeps = [])) ∧
      (∀ k, (∀ w n, k ≤ sleepCalls w → env.sleep w n = 0) → k < fuel →
        ∃ sleeps : List (Nat × Nat),
          main env fuel argv = Outcome.returned 0 (w1 ++ shutdownEvents c sleeps) ∧
          (∀ q ∈ sleeps, q.2 ≤ q.1) ∧
          (c.shutdown_type = SHUTDOWN_TYPE.DELAY_POWEROFF →
            sleptSeconds sleeps = c.shutdown_delay)) := by
  obtain ⟨w1, h1, p1⟩ := eraseStage_total env fuel hwalk c (lock_screen [])
    (by intro e he; simp [lock_screen, system] at he; rw [he]; rfl)
  have hmain : main env fuel argv =
      match shutdownStage env fuel c w1 with
      | none => Outcome.unfinished
      | some w2 => Outcome.returned 0 w2 := by
    unfold main
    rw [if_neg (by simp [hroot])]
    simp only [hparse, h1, Option.some_bind]
  have hcases := shutdownStage_cases env fuel c w1
  refine ⟨w1, h1, p1, ?_, ?_⟩
  · rcases hcases with ⟨hty, hnone⟩ | ⟨sleeps, hs, h2, h3, h4⟩
    · exact Or.inl ⟨hty, by rw [hmain, hnone]⟩
    · exact Or.inr ⟨sleeps, by rw [hmain, hs], h2, h3, h4⟩
  · intro k hk hfuel
    rcases hcases with ⟨_, hnone⟩ | ⟨sleeps, hs, h2, h3, _⟩
    · exact absurd hnone (shutdownStage_ends env fuel c w1 k hk hfuel)
    · exact ⟨sleeps, by rw [hmain, hs], h2, h3⟩

/-- Witness of C4: `--delay 5` where `/dev` cannot be opened and the first two
`sleep` calls are interrupted at once. -/
theorem c4_shutdown_always_reached_witness :
    (∃ sleeps : List (Nat × Nat),
      main envHostile 5 ["panic", "--delay", "5"] = Outcome.returned 0
        ([Event.system "xflock4", Event.sync, Event.sync] ++
          shutdownEvents { Config.initial with
            shutdown_type := SHUTDOWN_TYPE.DELAY_POWEROFF, shutdown_delay := 5 } sleeps) ∧
      (∀ q ∈ sleeps, q.2 ≤ q.1) ∧ sleptSeconds sleeps = 5) ∧
    main envHostile 5 ["panic", "--delay", "5"] = Outcome.returned 0
      [Event.system "xflock4", Event.sync, Event.sync,
       Event.printf "Waiting 5 seconds before poweroff...\n",
       Event.sleep 5 5, Event.sleep 5 5, Event.sleep 5 0,
       Event.reboot RebootCmd.RB_POWER_OFF] :=
  by
  obtain ⟨w1, h1, _, _, hk⟩ := c4_shutdown_always_reached envHostile 5 ["panic", "--delay", "5"]
    { Config.initial with shutdown_type := SHUTDOWN_TYPE.DELAY_POWEROFF, shutdown_delay := 5 }
    rfl (by decide) (by decide)
  have h2 : eraseStage envHostile 5 { Config.initial with
      shutdown_type := SHUTDOWN_TYPE.DELAY_POWEROFF, shutdown_delay := 5 } (lock_screen []) =
      some [Event.system "xflock4", Event.sync, Event.sync] := by decide
  have hw : w1 = [Event.system "xflock4", Event.sync, Event.sync] := by
    rw [h2] at h1
    exact (Option.some.inj h1).symm
  subst hw
  obtain ⟨sleeps, hm, hle, hsum⟩ :=
    hk 2 (fun w n h => by simp [envHostile, Nat.not_lt.mpr h]) (by decide)
  exact ⟨⟨sleeps, hm, hle, hsum rfl⟩, by decide⟩

/-- Claim C5: on an argument list that spells a sequence of recognized flags,
each `--delay` followed by the decimal text of a value that fits an `int`, the
parse loop started from the defaults ends with the left-to-right fold of the
per-flag effects over the defaults. -/
theorem c5_parse_is_fold (flags : List Flag) (h : ∀ fl ∈ flags, fl.fitsInt) :
    parseLoop (Flag.render flags) Config.initial =
      ParseResult.ok (flags.foldl Flag.effect Config.initial) :=
  parseLoop_render flags Config.initial h

/-- Witness of C5: later flags override earlier ones on the same field. -/
theorem c5_parse_is_fold_witness :
    parseLoop ["--delay", "5", "--erase=OPAL", "--dbg=skip-trim", "--reboot", "--delay", "7"]
        Config.initial =
      ParseResult.ok { shutdown_type := SHUTDOWN_TYPE.DELAY_POWEROFF, shutdown_delay := 7,
                       erase_mode := ERASE_MODE.OPAL, do_trim := false, do_notify := true } :=
  c5_parse_is_fold [Flag.delay 5, Flag.eraseOpal, Flag.skipTrim, Flag.reboot, Flag.delay 7]
    (by simp [Flag.fitsInt])

/-- Claim C6 as stated fails: run as root on `--bogus`, `main` has already
locked the screen when it rejects the flag; and on `--delay --bogus` the
unrecognized text is consumed as the seconds value, so the run is accepted and
goes on to erase and power off. -/
theorem c6_counterexample :
    main envOne 2 ["panic", "--bogus"] = Outcome.returned 1
      [Event.system "xflock4", Event.printf "Unsupported argument: --bogus\n"] ∧
    main envOne 2 ["panic", "--delay", "--bogus"] = Outcome.returned 0
      [Event.system "xflock4", Event.system "cryptsetup erase -q /dev/x0", Event.sync,
       Event.system "blkdiscard -sfv /dev/x0", Event.system "blkdiscard -fv /dev/x0",
       Event.fopen "/dev/x0" true, Event.printf "write_erase_notice: /dev/x0\n",
       Event.fwrite "/dev/x0" (messageBytes eraseNotice), Event.fclose "/dev/x0", Event.sync,
       Event.printf "Waiting 0 seconds before poweroff...\n",
       Event.reboot RebootCmd.RB_POWER_OFF] := by
  decide

/-- Claim C6, amended: when the parse loop, having consumed the arguments
before it, meets an argument that is none of the recognized flags, `main` run
as root returns 1 and its whole trace is the screen lock issued before parsing
and the message naming the argument: no erase action, no barrier, no power
transition. -/
theorem c6_rejected_after_lock (env : Env) (fuel : Nat) (argv pre post : List String)
    (bad : String) (c : Config)
    (hroot : env.geteuid = 0)
    (hargs : argv.drop 1 = pre ++ bad :: post)
    (hpre : parseLoop pre Config.initial = ParseResult.ok c)
    (hbad : bad ∉ recognizedFlags) :
    main env fuel argv = Outcome.returned 1
      [Event.system "xflock4", Event.printf ("Unsupported argument: " ++ bad ++ "\n")] := by
  unfold main
  rw [if_neg (by simp [hroot]), hargs, parseLoop_append pre _ _ c hpre,
    parseLoop_unrecognized bad post c hbad]
  rfl

/-- Witness of the amended C6: the unrecognized argument follows `--reboot`. -/
theorem c6_rejected_after_lock_witness :
    main envOne 0 ["panic", "--reboot", "--bogus", "--delay"] = Outcome.returned 1
      [Event.system "xflock4", Event.printf ("Unsupported argument: " ++ "--bogus" ++ "\n")] :=
  c6_rejected_after_lock envOne 0 ["panic", "--reboot", "--bogus", "--delay"] ["--reboot"]
    ["--delay"] "--bogus" { Config.initial with shutdown_type := SHUTDOWN_TYPE.REBOOT }
    rfl rfl (by decide) (by decide)

/-- Claim C7: run as root on arguments that resolve to erase mode `NONE` and
shutdown mode `NONE`, in any environment and with no fuel for any walk, `main`
returns 0 and its whole trace is the screen lock, the debug message and one
`sync`: no walk, no erase action, no power transition. -/
theorem c7_dry_run (env : Env) (fuel : Nat) (argv : List String) (c : Config)
    (hroot : env.geteuid = 0)
    (hparse : parseLoop (argv.drop 1) Config.initial = ParseResult.ok c)
    (herase : c.erase_mode = ERASE_MODE.NONE)
    (hshut : c.shutdown_type = SHUTDOWN_TYPE.NONE) :
    main env fuel argv = Outcome.returned 0
      [Event.system "xflock4",
       Event.printf "[debug] ERASE_MODE_NONE: Refusing to perform destructive actions.\n",
       Event.sync] := by
  unfold main
  rw [if_neg (by simp [hroot])]
  simp only [hparse, eraseStage, herase, shutdownStage, hshut]
  rfl

/-- Witness of C7: the single flag `--dbg=dry-run`. -/
theorem c7_dry_run_witness :
    main envOne 0 ["panic", "--dbg=dry-run"] = Outcome.returned 0
      [Event.system "xflock4",
       Event.printf "[debug] ERASE_MODE_NONE: Refusing to perform destructive actions.\n",
       Event.sync] :=
  c7_dry_run envOne 0 ["panic", "--dbg=dry-run"]
    { shutdown_type := SHUTDOWN_TYPE.NONE, shutdown_delay := 0, erase_mode := ERASE_MODE.NONE,
      do_trim := true, do_notify := true } (by decide) (by decide) (by decide) (by decide)

/-- Claim C8: `write_message_to_block_device` returns 1 and leaves the trace
untouched when the mode is not block-special; when it is and the open
succeeds, it writes the characters of `msg` and one NUL (`strlen(msg) + 1`
bytes) and returns 0; when the open fails it writes nothing and returns 2.
`write_erase_notice` passes the fixed notice text. -/
theorem c8_write_message (env : Env) (msg v : String) (mode : Nat) (w : World) :
    (S_ISBLK mode = false → write_message_to_block_device env msg v mode w = (1, w)) ∧
    (S_ISBLK mode = true → env.fopen w v = true →
      write_message_to_block_device env msg v mode w =
        (0, w ++ [Event.fopen v true, Event.printf ("write_erase_notice: " ++ v ++ "\n"),
                  Event.fwrite v (msg.toList ++ [Char.ofNat 0]), Event.fclose v]) ∧
      (msg.toList ++ [Char.ofNat 0]).length = msg.length + 1) ∧
    (S_ISBLK mode = true → env.fopen w v = false →
      write_message_to_block_device env msg v mode w = (2, w ++ [Event.fopen v false])) ∧
    write_erase_notice env v mode w =
      (write_message_to_block_device env
        "Panic handler: Device wiped [ data rendered permananetly irrecoverable through secure erasure ]\n"
        v mode w).2 := by
  refine ⟨?_, ?_, ?_, rfl⟩
  · intro h
    simp [write_message_to_block_device, h]
  · intro h ho
    refine ⟨?_, ?_⟩
    · simp [write_message_to_block_device, h, ho, messageBytes]
    · rw [List.length_append]
      rfl
  · intro h ho
    simp [write_message_to_block_device, h, ho]

/-- Witness of C8: a block device that opens, a regular file, and a block
device that does not open. -/
theorem c8_write_message_witness :
    write_message_to_block_device envOne eraseNotice "/dev/x0" S_IFBLK [] =
      (0, [Event.fopen "/dev/x0" true, Event.printf "write_erase_notice: /dev/x0\n",
           Event.fwrite "/dev/x0" (eraseNotice.toList ++ [Char.ofNat 0]),
           Event.fclose "/dev/x0"]) ∧
    write_message_to_block_device envOne eraseNotice "/etc/passwd" 0o100644 [] = (1, []) ∧
    write_message_to_block_device envHostile eraseNotice "/dev/x0" S_IFBLK [] =
      (2, [Event.fopen "/dev/x0" false]) :=
  ⟨((c8_write_message envOne eraseNotice "/dev/x0" S_IFBLK []).2.1 (by decide) (by decide)).1,
   (c8_write_message envOne eraseNotice "/etc/passwd" 0o100644 []).1 (by decide),
   (c8_write_message envHostile eraseNotice "/dev/x0" S_IFBLK []).2.2.1 (by decide)
     (by decide)⟩

/-- Claim C9 as stated fails: the entry `y0` of the subdirectory `/dev/mapper`
has unreadable metadata, the nested call returns -2, and the walk of `/dev`
with budget 1 still returns 0. -/
theorem c9_counterexample :
    foreach (fun _ => fsBroken) recordLeaf 2 "/dev/mapper" 0 [] = some (-2, []) ∧
    foreach (fun _ => fsBroken) recordLeaf 2 "/dev" 1 [] = some (0, [("/dev/x0", S_IFBLK)]) := by
  decide

/-- Claim C9, amended: on a finite directory tree in which some entries have
unreadable metadata, for every budget, `foreach` on the root returns as soon
as the bound on nested calls exceeds the depth of the tree, with status -2
when an entry of the root directory's own listing has unreadable metadata and
with status 0 otherwise, whatever is unreadable inside the subdirectories:
a nested call that fails returns -2 by this same statement, and the caller
drops it. -/
theorem c9_walk_status {σ : Type} (fsOf : σ → FS) (f : String → Nat → σ → σ)
    (root : String) (l : Damaged) (h : ∀ s, IsDamagedTree (fsOf s) root l)
    (recurse : Int) (fuel : Nat) (hfuel : l.depth < fuel) (s : σ) :
    ∃ s1, foreach fsOf f fuel root recurse s = some (if l.fails then -2 else 0, s1) := by
  obtain ⟨k, rfl⟩ : ∃ k, fuel = k + 1 := ⟨fuel - 1, by omega⟩
  unfold foreach
  simp only [(h s).1]
  exact foreachEntries_damaged fsOf f l root recurse k s (fun s2 => (h s2).2) (by omega)

/-- Witness of the amended C9: in `fsBroken` the unbounded walk of
`/dev/mapper` returns -2, and the walks of `/dev` that descend into it, with
budget 1 and unbounded, return 0. -/
theorem c9_walk_status_witness :
    (∃ s1, foreach (fun _ => fsBroken) recordLeaf 2 "/dev/mapper" (-1) [] = some (-2, s1)) ∧
    (∃ s1, foreach (fun _ => fsBroken) recordLeaf 2 "/dev" 1 [] = some (0, s1)) ∧
    (∃ s1, foreach (fun _ => fsBroken) recordLeaf 2 "/dev" (-1) [] = some (0, s1)) :=
  ⟨c9_walk_status (fun _ => fsBroken) recordLeaf "/dev/mapper" treeMapperBroken
      (fun _ => fsBroken_mapper_isTree) (-1) 2 (by decide) [],
   c9_walk_status (fun _ => fsBroken) recordLeaf "/dev" treeBroken
      (fun _ => fsBroken_isTree) 1 2 (by decide) [],
   c9_walk_status (fun _ => fsBroken) recordLeaf "/dev" treeBroken
      (fun _ => fsBroken_isTree) (-1) 2 (by decide) []⟩

/-- Claim C10, evaluated on the code: with `--delay` as the last argument the
parse loop takes `argv[argc]`, the null pointer, as the seconds value and
hands it to `atoi`; the run ends in that fault, after the screen lock. -/
theorem c10_delay_last_reads_null :
    parseLoop (["panic", "--delay"].drop 1) Config.initial = ParseResult.nullArgument ∧
    main envOne 2 ["panic", "--delay"] = Outcome.fault [Event.system "xflock4"] := by
  decide

end PanicWipe
